import Mathlib

/-!
# Verification of persian-fontkit: result cache and optimization pipeline

Shallow embedding of the repository's core modules:
* `src/utils/cache.ts`   — `FontCache` (get/set/delete/clear/getStats/cleanOld)
* `src/utils/file.ts`    — file helpers (`fileExists`, `writeFileBuffer`,
  `calculateReduction`, `formatFileSize`, `generateHash`, ...)
* `src/utils/subsetConfig.ts` — subset tables and `getSubsetCharacters`
* validation module      — `validateOptimizationOptions`, `validateFontFile`
* optimizer module       — `optimizeFont`, `generateOptimizedCSS`,
  `calculateAverageReduction`

Modelling conventions:
* Paths are lists of segments (`FPath := List String`); an absolute path
  `/a/b` is `["", "a", "b"]`.  `path.join(dir, name)` is `dir ++ [name]`,
  `path.dirname` is `List.dropLast`, `path.basename` the last segment.
* The filesystem is a finite map from paths to file data plus a set of
  existing directories and a set of "failing" paths; any Node `fs` call
  touching a failing path raises, modelling permission/IO errors.
* `fs/promises` operations return `Except IOErr`; a JavaScript
  `try { ... } catch { ... }` is embedded by matching on the `Except`.
* MD5 digests are modelled by a concrete deterministic digest function
  (`hashBytes`); the verified claims depend only on its determinism,
  never on properties specific to MD5.
* Cache entry files hold a structured `CacheEntry` directly; a cache file
  whose content is unparseable JSON is modelled by the `text` constructor,
  on which `JSON.parse` fails.
* JavaScript numbers used as sizes are `Nat`, timestamps and font weights
  are `Int`; the floating-point formatting inside `formatFileSize` and
  `calculateReduction` is reproduced with exact integer arithmetic (the
  NaN / -Infinity branches of `calculateReduction` are exact).
-/

/-! ## Paths -/

/-- A filesystem path, as a list of segments. `/a/b` is `["", "a", "b"]`. -/
abbrev FPath := List String

/-- Render a path the way the Javascript code holds it (segments joined by `/`). -/
def pathToString (p : FPath) : String := String.intercalate "/" p

/-- `path.basename(p)`: the last segment (edge cases of trailing slashes ignored;
no claim exercises them). -/
def pathBasename (p : FPath) : String := List.getLastD p ""

/-- Split a character list on `.` (the pieces of `s.splitOn "."`). -/
def splitOnDot : List Char → List (List Char)
  | [] => [[]]
  | c :: rest =>
    match splitOnDot rest with
    | [] => [[]]
    | h :: t => if c = '.' then [] :: h :: t else (c :: h) :: t

/-- Suffix test (`String.endsWith`), computed on the character lists. -/
def endsWithB (s suf : String) : Bool :=
  if suf.data.length ≤ s.data.length then
    decide (s.data.drop (s.data.length - suf.data.length) = suf.data)
  else false

/-- Lower-casing (`String.toLower`), computed on the character list. -/
def toLowerStr (s : String) : String := String.mk (s.data.map Char.toLower)

/-- Extension of a bare file name, as Node's `path.extname` computes it:
everything from the last dot on, `""` when there is no dot or the only dot
starts the name. -/
def extnameStr (s : String) : String :=
  match splitOnDot s.data with
  | [] => ""
  | [_] => ""
  | first :: rest =>
    if first = [] ∧ rest.length = 1 then ""
    else "." ++ String.mk (List.getLastD rest [])

/-- `path.extname(p)` on a path. -/
def pathExtname (p : FPath) : String := extnameStr (pathBasename p)

/-- Node's `path.basename(name, ext)`: strips the suffix `ext` when present
(and when it does not consume the whole name). -/
def basenameStripStr (s ext : String) : String :=
  if endsWithB s ext ∧ s.data.length > ext.data.length then
    String.mk (s.data.take (s.data.length - ext.data.length))
  else s

/-- The current working directory used by `path.resolve` for relative paths. -/
def cwdSegs : FPath := ["", "cwd"]

/-- `path.resolve(p)`: prepend the working directory to a relative path. -/
def resolveAbs (p : FPath) : FPath :=
  if p.head? = some "" then p else cwdSegs ++ p

/-! ## Digests (MD5 modelled by a concrete deterministic digest) -/

/-- Deterministic stand-in for an MD5 digest of a byte buffer. -/
def hashBytes (bs : List Nat) : Nat :=
  bs.foldl (fun h b => (h * 257 + b + 1) % (2 ^ 64)) 7

/-- Deterministic stand-in for an MD5 digest of a string. -/
def hashString (s : String) : Nat :=
  s.data.foldl (fun h c => (h * 131 + c.toNat + 1) % (2 ^ 64)) 11

/-- Deterministic digest of a path (digest of its rendered form). -/
def hashPath (p : FPath) : Nat := hashString (pathToString p)

/-! ## File data and the filesystem state -/

/-- A cache entry's flattened result record (`CacheEntry.result` in cache.ts). -/
structure CacheEntryResult where
  originalSize : Nat
  optimizedSize : Nat
  reduction : String
  fontFamily : String
  fontWeight : Int
  outputPath : FPath
  cssContent : String
deriving DecidableEq, Repr

/-- The on-disk cache entry (`CacheEntry` in cache.ts). -/
structure CacheEntry where
  inputHash : Nat
  timestamp : Int
  version : String
  result : CacheEntryResult
deriving DecidableEq, Repr

/-- Contents of one file: raw bytes (fonts, binaries), a serialized cache
entry, or other text (including corrupt cache files, on which `JSON.parse`
fails). -/
inductive FileData where
  | bytes (bs : List Nat)
  | entryFile (e : CacheEntry)
  | text (s : String)
deriving DecidableEq, Repr

/-- The bytes `fs.readFile` yields for a file.  Fonts are always stored with
the `bytes` constructor; reading an `entryFile` as a buffer never happens in
a verified claim, so its byte form is abstracted as empty. -/
def FileData.toBytes : FileData → List Nat
  | .bytes bs => bs
  | .entryFile _ => []
  | .text s => s.data.map Char.toNat

/-- Byte size reported by `fs.stat`.  For an `entryFile` the serialized JSON
length is abstracted by a surrogate; no verified claim depends on it. -/
def FileData.size : FileData → Nat
  | .bytes bs => bs.length
  | .entryFile e => e.result.cssContent.length + 64
  | .text s => s.length

/-- Association-list lookup over path-keyed files. -/
def lookupFile : List (FPath × FileData) → FPath → Option FileData
  | [], _ => none
  | (q, d) :: rest, p => if q = p then some d else lookupFile rest p

/-- Remove every binding of a path. -/
def removeFile : List (FPath × FileData) → FPath → List (FPath × FileData)
  | [], _ => []
  | (q, d) :: rest, p =>
    if q = p then removeFile rest p else (q, d) :: removeFile rest p

/-- Insert (replacing any previous binding). -/
def insertFile (l : List (FPath × FileData)) (p : FPath) (d : FileData) :
    List (FPath × FileData) :=
  (p, d) :: removeFile l p

/-- The filesystem: files, existing directories, and paths on which any
filesystem operation raises (permission errors and the like). -/
structure FS where
  files : List (FPath × FileData)
  dirs : List FPath
  failing : List FPath
deriving DecidableEq

/-- Errors raised by the modelled `fs` layer. -/
inductive IOErr where
  | enoent
  | eacces
deriving DecidableEq, Repr

/-- `fileExists` / `fs.existsSync`: `fs.access` succeeds on files and
directories; every error (including permission errors) is caught and
reported as `false`. -/
def fsFileExistsB (fs : FS) (p : FPath) : Bool :=
  !(fs.failing.contains p) && ((lookupFile fs.files p).isSome || fs.dirs.contains p)

/-- A stat record (`isFile`, byte size). -/
structure FsStat where
  isFile : Bool
  size : Nat
deriving DecidableEq, Repr

/-- `fs.stat` / `fs.statSync`. -/
def fsStat (fs : FS) (p : FPath) : Except IOErr FsStat :=
  if fs.failing.contains p then .error .eacces
  else
    match lookupFile fs.files p with
    | some d => .ok ⟨true, d.size⟩
    | none => if fs.dirs.contains p then .ok ⟨false, 0⟩ else .error .enoent

/-- `fs.readFile` / `fs.readFileSync`. -/
def fsReadFile (fs : FS) (p : FPath) : Except IOErr FileData :=
  if fs.failing.contains p then .error .eacces
  else
    match lookupFile fs.files p with
    | some d => .ok d
    | none => .error .enoent

/-- `fs.writeFile` (parent-directory existence is handled by the callers,
which always `ensureDir` first). -/
def fsWriteFile (fs : FS) (p : FPath) (d : FileData) : Except IOErr FS :=
  if fs.failing.contains p then .error .eacces
  else .ok { fs with files := insertFile fs.files p d }

/-- `fs.unlink`. -/
def fsUnlink (fs : FS) (p : FPath) : Except IOErr FS :=
  if fs.failing.contains p then .error .eacces
  else
    match lookupFile fs.files p with
    | some _ => .ok { fs with files := removeFile fs.files p }
    | none => .error .enoent

/-- `fs.mkdir(p, { recursive: true })`: succeeds when the directory already
exists. -/
def fsMkdirRec (fs : FS) (p : FPath) : Except IOErr FS :=
  if fs.failing.contains p then .error .eacces
  else if fs.dirs.contains p then .ok fs
  else .ok { fs with dirs := p :: fs.dirs }

/-- The name under `dir` of a path that is a direct child of `dir`. -/
def childNameOf : FPath → FPath → Option String
  | [], [n] => some n
  | d :: dir, q :: p => if d = q then childNameOf dir p else none
  | _, _ => none

/-- `fs.readdir(dir)`: the names of the files directly under `dir`. -/
def fsReaddir (fs : FS) (dir : FPath) : Except IOErr (List String) :=
  if fs.failing.contains dir then .error .eacces
  else if fs.dirs.contains dir then
    .ok (fs.files.filterMap fun pr => childNameOf dir pr.1)
  else .error .enoent

/-- `fs.rmdir`: fails when the directory is absent or not empty. -/
def fsRmdir (fs : FS) (dir : FPath) : Except IOErr FS :=
  if fs.failing.contains dir then .error .eacces
  else if fs.dirs.contains dir then
    if fs.files.any (fun pr => (childNameOf dir pr.1).isSome) then .error .eacces
    else .ok { fs with dirs := fs.dirs.erase dir }
  else .error .enoent

/-! ## file.ts helpers -/

/-- `ensureDir` from file.ts: `fs.mkdir(dir, { recursive: true })`. -/
def ensureDir (fs : FS) (dir : FPath) : Except IOErr FS := fsMkdirRec fs dir

/-- `writeFileBuffer` from file.ts: `ensureDir(path.dirname(p))`, then write.
The filesystem component is the state at the point of any raise. -/
def writeFileBuffer (fs : FS) (p : FPath) (d : FileData) :
    Except IOErr Unit × FS :=
  match ensureDir fs p.dropLast with
  | .error e => (.error e, fs)
  | .ok fs1 =>
    match fsWriteFile fs1 p d with
    | .error e => (.error e, fs1)
    | .ok fs2 => (.ok (), fs2)

/-- Unit suffix used by `formatFileSize` (source: `["B","KB","MB","GB"]`). -/
def sizeUnit : Nat → String
  | 0 => "B"
  | 1 => "KB"
  | 2 => "MB"
  | _ => "GB"

/-- `Math.floor(Math.log(bytes) / Math.log(1024))`, capped at the last unit;
exact for every positive byte count below 1 TB. -/
def log1024Floor (bytes : Nat) : Nat :=
  if bytes ≥ 1024 ^ 3 then 3
  else if bytes ≥ 1024 ^ 2 then 2
  else if bytes ≥ 1024 then 1
  else 0

/-- Render `scaled100 / 100` with up to two decimals, trailing zeros removed,
as `parseFloat(x.toFixed(2))` renders it. -/
def twoDecimalStr (scaled100 : Nat) : String :=
  let intPart := scaled100 / 100
  let frac := scaled100 % 100
  if frac = 0 then toString intPart
  else if frac % 10 = 0 then toString intPart ++ "." ++ toString (frac / 10)
  else if frac < 10 then toString intPart ++ ".0" ++ toString frac
  else toString intPart ++ "." ++ toString frac

/-- `formatFileSize` from file.ts.  The IEEE-754 `toFixed(2)` rounding is
reproduced by exact half-up rounding on rationals; no verified claim
depends on this string. -/
def formatFileSize (bytes : Nat) : String :=
  if bytes = 0 then "0 B"
  else
    let i := log1024Floor bytes
    twoDecimalStr ((2 * bytes * 100 + 1024 ^ i) / (2 * 1024 ^ i)) ++ " " ++ sizeUnit i

/-- `calculateReduction` from file.ts:
`(((original - optimized) / original) * 100).toFixed(1)`.
The `original = 0` branches are exact JavaScript semantics
(`0/0` is `NaN`, a negative number over `0` is `-Infinity`, and `toFixed`
renders those as `"NaN"` / `"-Infinity"`); the finite branch reproduces
`toFixed(1)` by exact half-up rounding. -/
def calculateReduction (original optimized : Nat) : String :=
  if original = 0 then (if optimized = 0 then "NaN" else "-Infinity")
  else if optimized ≤ original then
    let t := (2 * (original - optimized) * 1000 + original) / (2 * original)
    toString (t / 10) ++ "." ++ toString (t % 10)
  else
    let m := optimized - original
    let t := (2 * m * 1000 + original) / (2 * original)
    "-" ++ toString (t / 10) ++ "." ++ toString (t % 10)

/-- `generateHash` from file.ts (md5 hex digest truncated to 8 chars),
modelled by a surrogate digest rendering; deterministic in the content. -/
def generateHash (content : List Nat) : String :=
  "h" ++ toString (hashBytes content % 10000000)

/-- `generateOptimizedFilename` from file.ts. -/
def generateOptimizedFilename (originalName hash ext : String) : String :=
  basenameStripStr originalName (extnameStr originalName) ++ "-" ++ hash ++ ext

/-- `FontFileMetadata` from file.ts. -/
structure FontFileMetadata where
  path : FPath
  name : String
  extension : String
  size : Nat
  sizeFormatted : String
deriving DecidableEq, Repr

/-- `getFontMetadata` from file.ts. -/
def getFontMetadata (fs : FS) (p : FPath) : Except IOErr FontFileMetadata :=
  match fsStat fs p with
  | .error e => .error e
  | .ok st => .ok ⟨p, pathBasename p, pathExtname p, st.size, formatFileSize st.size⟩

/-! ## The optimization result (optimizer module) -/

/-- `OptimizationResult` from the optimizer module. -/
structure OptimizationResult where
  original : FontFileMetadata
  optimized : FontFileMetadata
  reduction : String
  css : String
  fontFamily : String
  fontWeight : Int
deriving DecidableEq, Repr

/-! ## FontCache (cache.ts) -/

/-- `cacheVersion` field of `FontCache` ("1.0.0"). -/
def cacheVersion : String := "1.0.0"

/-- The constructor default `"./.persian-fontkit-cache"`. -/
def defaultCacheDir : FPath := [".", ".persian-fontkit-cache"]

/-- `FontCache`: its only state is the cache directory. -/
structure FontCache where
  cacheDir : FPath
deriving DecidableEq

/-- `getCacheKey`: digest of the resolved absolute input path (and of
nothing else). -/
def getCacheKey (p : FPath) : String :=
  "k" ++ toString (hashPath (resolveAbs p))

/-- `path.join(this.cacheDir, cacheKey + ".json")`. -/
def FontCache.cachePathOf (c : FontCache) (p : FPath) : FPath :=
  c.cacheDir ++ [getCacheKey p ++ ".json"]

/-- `getFileHash`: md5 of the file's bytes. -/
def getFileHash (fs : FS) (p : FPath) : Except IOErr Nat :=
  match fsReadFile fs p with
  | .error e => .error e
  | .ok d => .ok (hashBytes d.toBytes)

/-- `JSON.parse` of a cache file followed by use as a `CacheEntry`:
succeeds exactly on serialized entries. -/
def parseEntry : FileData → Option CacheEntry
  | .entryFile e => some e
  | _ => none

/-- The `OptimizationResult` a cache entry reconstructs (the payload of
`entryToResult`): stored scalar fields, metadata re-derived from the entry's
paths and byte counts. -/
def restoredResult (e : CacheEntry) (inputPath : FPath) : OptimizationResult :=
  { original :=
      { path := inputPath
        name := pathBasename inputPath
        extension := pathExtname inputPath
        size := e.result.originalSize
        sizeFormatted := formatFileSize e.result.originalSize }
    optimized :=
      { path := e.result.outputPath
        name := pathBasename e.result.outputPath
        extension := pathExtname e.result.outputPath
        size := e.result.optimizedSize
        sizeFormatted := formatFileSize e.result.optimizedSize }
    reduction := e.result.reduction
    css := e.result.cssContent
    fontFamily := e.result.fontFamily
    fontWeight := e.result.fontWeight }

/-- `entryToResult` from cache.ts: re-stat both files (for liveness; the
source keeps the stored byte counts), then rebuild the result from the
entry's stored scalar fields. -/
def entryToResult (fs : FS) (e : CacheEntry) (inputPath : FPath) :
    Except IOErr OptimizationResult :=
  match fsStat fs inputPath with
  | .error err => .error err
  | .ok _ =>
    match fsStat fs e.result.outputPath with
    | .error err => .error err
    | .ok _ => .ok (restoredResult e inputPath)

/-- Body of `FontCache.delete` inside its `try`; the filesystem component is
the state at the point of any raise. -/
def FontCache.deleteInner (c : FontCache) (fs : FS) (p : FPath) :
    Except IOErr Unit × FS :=
  let cachePath := c.cachePathOf p
  if fsFileExistsB fs cachePath then
    match fsUnlink fs cachePath with
    | .ok fs' => (.ok (), fs')
    | .error e => (.error e, fs)
  else (.ok (), fs)

/-- `FontCache.delete`: errors are swallowed by its `catch`. -/
def FontCache.delete (c : FontCache) (fs : FS) (p : FPath) : Except IOErr FS :=
  match c.deleteInner fs p with
  | (.ok _, fs') => .ok fs'
  | (.error _, fs') => .ok fs'

/-- The filesystem after `FontCache.delete` (which never raises). -/
def FontCache.deleteP (c : FontCache) (fs : FS) (p : FPath) : FS :=
  (c.deleteInner fs p).2

/-- Body of `FontCache.get` inside its `try`: existence check, read, parse,
version check, content-hash check, artifact check, reconstruction.  A parse
failure is `JSON.parse` throwing. -/
def FontCache.getInner (c : FontCache) (fs : FS) (inputPath : FPath) :
    Except IOErr (Option OptimizationResult) × FS :=
  let cachePath := c.cachePathOf inputPath
  if fsFileExistsB fs cachePath = false then (.ok none, fs)
  else
    match fsReadFile fs cachePath with
    | .error e => (.error e, fs)
    | .ok d =>
      match parseEntry d with
      | none => (.error .eacces, fs)
      | some entry =>
        if entry.version ≠ cacheVersion then
          (.ok none, c.deleteP fs inputPath)
        else
          match getFileHash fs inputPath with
          | .error e => (.error e, fs)
          | .ok currentHash =>
            if entry.inputHash ≠ currentHash then
              (.ok none, c.deleteP fs inputPath)
            else if fsFileExistsB fs entry.result.outputPath = false then
              (.ok none, c.deleteP fs inputPath)
            else
              match entryToResult fs entry inputPath with
              | .error e => (.error e, fs)
              | .ok r => (.ok (some r), fs)

/-- `FontCache.get`: on any raise inside the body, the `catch` reports a
cache miss (`null`). -/
def FontCache.get (c : FontCache) (fs : FS) (p : FPath) :
    Except IOErr (Option OptimizationResult × FS) :=
  match c.getInner fs p with
  | (.ok v, fs') => .ok (v, fs')
  | (.error _, fs') => .ok (none, fs')

/-- `FontCache.get` as the total function its callers observe. -/
def FontCache.getP (c : FontCache) (fs : FS) (p : FPath) :
    Option OptimizationResult × FS :=
  match c.getInner fs p with
  | (.ok v, fs') => (v, fs')
  | (.error _, fs') => (none, fs')

/-- The entry `FontCache.set` persists. -/
def mkEntry (inputHash : Nat) (now : Int) (r : OptimizationResult) : CacheEntry :=
  { inputHash := inputHash
    timestamp := now
    version := cacheVersion
    result :=
      { originalSize := r.original.size
        optimizedSize := r.optimized.size
        reduction := r.reduction
        fontFamily := r.fontFamily
        fontWeight := r.fontWeight
        outputPath := r.optimized.path
        cssContent := r.css } }

/-- Body of `FontCache.set` inside its `try`: ensure the cache directory,
hash the input's current bytes, write the entry file. -/
def FontCache.setInner (c : FontCache) (fs : FS) (p : FPath)
    (r : OptimizationResult) (now : Int) : Except IOErr Unit × FS :=
  match ensureDir fs c.cacheDir with
  | .error e => (.error e, fs)
  | .ok fs1 =>
    let cachePath := c.cachePathOf p
    match getFileHash fs1 p with
    | .error e => (.error e, fs1)
    | .ok h =>
      match fsWriteFile fs1 cachePath (.entryFile (mkEntry h now r)) with
      | .error e => (.error e, fs1)
      | .ok fs2 => (.ok (), fs2)

/-- `FontCache.set`: write failures are logged and swallowed. -/
def FontCache.set (c : FontCache) (fs : FS) (p : FPath)
    (r : OptimizationResult) (now : Int) : Except IOErr FS :=
  match c.setInner fs p r now with
  | (.ok _, fs') => .ok fs'
  | (.error _, fs') => .ok fs'

/-- `FontCache.set` as the total function its callers observe. -/
def FontCache.setP (c : FontCache) (fs : FS) (p : FPath)
    (r : OptimizationResult) (now : Int) : FS :=
  (c.setInner fs p r now).2

/-- Body of `FontCache.clear` inside its `try`: unlink every name under the
cache directory (each unlink's own failure swallowed by `.catch`), then a
best-effort `rmdir`. -/
def FontCache.clearInner (c : FontCache) (fs : FS) : Except IOErr Unit × FS :=
  if fsFileExistsB fs c.cacheDir then
    match fsReaddir fs c.cacheDir with
    | .error e => (.error e, fs)
    | .ok names =>
      let fs1 := names.foldl
        (fun acc n =>
          match fsUnlink acc (c.cacheDir ++ [n]) with
          | .ok a => a
          | .error _ => acc) fs
      match fsRmdir fs1 c.cacheDir with
      | .ok fs2 => (.ok (), fs2)
      | .error _ => (.ok (), fs1)
  else (.ok (), fs)

/-- `FontCache.clear`: errors are logged and swallowed. -/
def FontCache.clear (c : FontCache) (fs : FS) : Except IOErr FS :=
  match c.clearInner fs with
  | (.ok _, fs') => .ok fs'
  | (.error _, fs') => .ok fs'

/-- The statistics record `getStats` returns. -/
structure CacheStats where
  entries : Nat
  totalSize : Nat
  oldestEntry : Option Int
  newestEntry : Option Int
deriving DecidableEq, Repr

/-- The per-file loop of `getStats`: `fs.stat` outside the inner `try`
(so its failure aborts the whole body), read + parse inside it (so their
failure just skips the entry's timestamps). -/
def getStatsLoop (c : FontCache) (fs : FS) :
    List String → Nat × Option Int × Option Int →
    Except IOErr (Nat × Option Int × Option Int)
  | [], acc => .ok acc
  | n :: rest, acc =>
    if endsWithB n ".json" = false then getStatsLoop c fs rest acc
    else
      match fsStat fs (c.cacheDir ++ [n]) with
      | .error e => .error e
      | .ok st =>
        let total := acc.1 + st.size
        match fsReadFile fs (c.cacheDir ++ [n]) with
        | .error _ => getStatsLoop c fs rest (total, acc.2)
        | .ok d =>
          match parseEntry d with
          | none => getStatsLoop c fs rest (total, acc.2)
          | some e =>
            let oldest :=
              match acc.2.1 with
              | none => some e.timestamp
              | some o => some (min o e.timestamp)
            let newest :=
              match acc.2.2 with
              | none => some e.timestamp
              | some o => some (max o e.timestamp)
            getStatsLoop c fs rest (total, oldest, newest)

/-- Body of `FontCache.getStats` inside its `try`. -/
def FontCache.getStatsInner (c : FontCache) (fs : FS) :
    Except IOErr CacheStats :=
  if fsFileExistsB fs c.cacheDir = false then .ok ⟨0, 0, none, none⟩
  else
    match fsReaddir fs c.cacheDir with
    | .error e => .error e
    | .ok names =>
      match getStatsLoop c fs names (0, none, none) with
      | .error e => .error e
      | .ok (total, oldest, newest) =>
        .ok ⟨(names.filter (fun n => endsWithB n ".json")).length, total,
             oldest, newest⟩

/-- `FontCache.getStats`: on any raise, zero statistics. -/
def FontCache.getStats (c : FontCache) (fs : FS) : Except IOErr CacheStats :=
  match c.getStatsInner fs with
  | .ok s => .ok s
  | .error _ => .ok ⟨0, 0, none, none⟩

/-- The per-file loop of `cleanOld`: read + parse + age check + unlink all
inside the inner `try` (any failure skips the file); the deletion counter
is incremented only after a successful unlink. -/
def cleanLoop (c : FontCache) (now maxAgeMs : Int) :
    List String → FS → Nat → Nat × FS
  | [], fs, acc => (acc, fs)
  | n :: rest, fs, acc =>
    if endsWithB n ".json" = false then cleanLoop c now maxAgeMs rest fs acc
    else
      match fsReadFile fs (c.cacheDir ++ [n]) with
      | .error _ => cleanLoop c now maxAgeMs rest fs acc
      | .ok d =>
        match parseEntry d with
        | none => cleanLoop c now maxAgeMs rest fs acc
        | some e =>
          if now - e.timestamp > maxAgeMs then
            match fsUnlink fs (c.cacheDir ++ [n]) with
            | .error _ => cleanLoop c now maxAgeMs rest fs acc
            | .ok fs' => cleanLoop c now maxAgeMs rest fs' (acc + 1)
          else cleanLoop c now maxAgeMs rest fs acc

/-- Body of `FontCache.cleanOld` inside its `try`. -/
def FontCache.cleanOldInner (c : FontCache) (fs : FS) (now maxAgeMs : Int) :
    Except IOErr Nat × FS :=
  if fsFileExistsB fs c.cacheDir = false then (.ok 0, fs)
  else
    match fsReaddir fs c.cacheDir with
    | .error e => (.error e, fs)
    | .ok names =>
      let r := cleanLoop c now maxAgeMs names fs 0
      (.ok r.1, r.2)

/-- `FontCache.cleanOld`: on any raise, zero deletions. -/
def FontCache.cleanOld (c : FontCache) (fs : FS) (now maxAgeMs : Int) :
    Except IOErr (Nat × FS) :=
  match c.cleanOldInner fs now maxAgeMs with
  | (.ok k, fs') => .ok (k, fs')
  | (.error _, fs') => .ok (0, fs')

/-! ## subsetConfig.ts -/

/-- The `SUBSET_CONFIGS` table.  The source stores each Unicode range as a
string `"U+START-END"` parsed by a regex in `getSubsetCharacters`; the model
stores the parsed inclusive code-point bounds directly. -/
def subsetConfigRanges (name : String) : Option (List (Nat × Nat)) :=
  if name = "farsi" then
    some [(0x600, 0x6FF), (0x750, 0x77F), (0xFB50, 0xFDFF), (0xFE70, 0xFEFF),
          (0x200C, 0x200E), (0x2010, 0x2019), (0xAB, 0xAB), (0xBB, 0xBB)]
  else if name = "latin" then
    some [(0x20, 0x7E), (0xA0, 0xFF)]
  else if name = "numbers" then
    some [(0x30, 0x39), (0x6F0, 0x6F9), (0x660, 0x669)]
  else if name = "punctuation" then
    some [(0x20, 0x2F), (0x3A, 0x40), (0x5B, 0x60), (0x7B, 0x7E),
          (0x60C, 0x60C), (0x61B, 0x61B), (0x61F, 0x61F)]
  else none

/-- All code points of an inclusive range, as characters
(`String.fromCodePoint` per point in the source). -/
def rangeChars (s e : Nat) : List Char :=
  (List.range (e + 1 - s)).map (fun i => Char.ofNat (s + i))

/-- `getSubsetCharacters`: unrecognized subset names contribute nothing. -/
def getSubsetCharacters (subsets : List String) : List Char :=
  (subsets.map (fun s =>
    match subsetConfigRanges s with
    | some ranges => (ranges.map (fun r => rangeChars r.1 r.2)).flatten
    | none => [])).flatten

/-- `DEFAULT_SUBSETS`. -/
def DEFAULT_SUBSETS : List String := ["farsi", "latin", "numbers", "punctuation"]

/-! ## errors.ts -/

/-- The error kinds the pipeline and validators raise (`errors.ts`).  The
`value` payload of `ValidationError` and nested original errors are not
modelled; claims only inspect the kind, `field` and path. -/
inductive PFKError where
  | validation (message field : String)
  | unsupportedFormat (message format : String)
  | invalidFont (message : String) (fontPath : FPath) (reason : String)
  | fontOptimization (message : String) (fontPath : FPath)
deriving DecidableEq, Repr

/-- An error escaping a validator: either a typed persian-fontkit error or a
raw filesystem error from `statSync` / `readFileSync`. -/
abbrev VErr := Sum PFKError IOErr

/-! ## Validation module -/

/-- `SUPPORTED_FORMATS`. -/
def SUPPORTED_FORMATS : List String := [".ttf", ".otf", ".woff", ".woff2"]

/-- `SUPPORTED_OUTPUT_FORMATS`. -/
def SUPPORTED_OUTPUT_FORMATS : List String := ["woff2", "woff", "ttf"]

/-- Valid `font-display` values. -/
def validDisplayValues : List String :=
  ["auto", "block", "swap", "fallback", "optional"]

/-- `OptimizationOptions`.  Optional fields are `Option`; the source's
destructuring defaults are applied inside `optimizeFont`. -/
structure OptimizationOptions where
  inputPath : FPath
  outputDir : FPath
  fontFamily : Option String := none
  fontWeight : Option Int := none
  fontStyle : Option String := none
  subsets : Option (List String) := none
  format : Option String := none
  fontDisplay : Option String := none
  useHash : Option Bool := none
  cache : Option Bool := none
  cacheDir : Option FPath := none
deriving DecidableEq, Repr

/-- Core of `validateOptimizationOptions`, abstracted over the two
filesystem observations it makes about the input path (`existsSync`,
`statSync`), in source order: required input path, existence, input
extension, is-a-file, empty file, required output dir, output format,
weight range, style, display.  The `typeof` checks and the `subsets`
is-array check cannot fail in the typed model; the large-file branch only
warns.  An empty-string `format`/`fontStyle`/`fontDisplay` is falsy in
JavaScript and skips its check. -/
def validateOptsCore (existsB : Bool) (st : Except IOErr FsStat)
    (opts : OptimizationOptions) : Except VErr Unit :=
  if opts.inputPath = [] then
    .error (.inl (.validation "Input path is required" "inputPath"))
  else if existsB = false then
    .error (.inl (.validation
      ("Font file not found: " ++ pathToString opts.inputPath) "inputPath"))
  else
    let ext := toLowerStr (pathExtname opts.inputPath)
    if SUPPORTED_FORMATS.contains ext = false then
      .error (.inl (.unsupportedFormat ("Unsupported font format: " ++ ext) ext))
    else
      match st with
      | .error io => .error (.inr io)
      | .ok stat =>
        if stat.isFile = false then
          .error (.inl (.validation
            ("Input path is not a file: " ++ pathToString opts.inputPath)
            "inputPath"))
        else if stat.size = 0 then
          .error (.inl (.invalidFont
            ("Font file is empty: " ++ pathToString opts.inputPath)
            opts.inputPath "File size is 0 bytes"))
        else if opts.outputDir = [] then
          .error (.inl (.validation "Output directory is required" "outputDir"))
        else
          match opts.format with
          | some f =>
            if f ≠ "" ∧ SUPPORTED_OUTPUT_FORMATS.contains f = false then
              .error (.inl (.unsupportedFormat
                ("Unsupported output format: " ++ f) f))
            else validateOptsTail opts
          | none => validateOptsTail opts
where
  /-- Weight, style and display checks (the tail of the validator). -/
  validateOptsTail (opts : OptimizationOptions) : Except VErr Unit :=
    match opts.fontWeight with
    | some w =>
      if w < 100 ∨ w > 900 then
        .error (.inl (.validation
          ("Font weight must be between 100 and 900, got: " ++ toString w)
          "fontWeight"))
      else validateOptsTail2 opts
    | none => validateOptsTail2 opts
  /-- Style and display checks. -/
  validateOptsTail2 (opts : OptimizationOptions) : Except VErr Unit :=
    match opts.fontStyle with
    | some s =>
      if s ≠ "" ∧ ¬(s = "normal" ∨ s = "italic") then
        .error (.inl (.validation
          ("Font style must be normal or italic, got: " ++ s) "fontStyle"))
      else validateOptsTail3 opts
    | none => validateOptsTail3 opts
  /-- Display check. -/
  validateOptsTail3 (opts : OptimizationOptions) : Except VErr Unit :=
    match opts.fontDisplay with
    | some dv =>
      if dv ≠ "" ∧ validDisplayValues.contains dv = false then
        .error (.inl (.validation
          ("Font display must be one of: auto, block, swap, fallback, optional")
          "fontDisplay"))
      else .ok ()
    | none => .ok ()

/-- `validateOptimizationOptions` over the filesystem. -/
def validateOptimizationOptions (fs : FS) (opts : OptimizationOptions) :
    Except VErr Unit :=
  validateOptsCore (fsFileExistsB fs opts.inputPath)
    (fsStat fs opts.inputPath) opts

/-- Core of `validateFontFile`, abstracted over the `readFileSync` result:
the shallow binary signature check per claimed extension.  Out-of-range
buffer access yields `undefined` in JavaScript, which compares unequal to
every byte; the model uses the sentinel `1000`. -/
def validateFontFileCore (rd : Except IOErr FileData) (p : FPath) :
    Except VErr Unit :=
  match rd with
  | .error io => .error (.inr io)
  | .ok d =>
    let buffer := d.toBytes
    let b := fun i => buffer.getD i 1000
    let ext := toLowerStr (pathExtname p)
    if ext = ".ttf" then
      if (b 0 = 0x00 ∧ b 1 = 0x01 ∧ b 2 = 0x00 ∧ b 3 = 0x00) ∨
         (b 0 = 0x74 ∧ b 1 = 0x72 ∧ b 2 = 0x75 ∧ b 3 = 0x65) then .ok ()
      else
        .error (.inl (.invalidFont
          ("Invalid TTF file signature: " ++ pathToString p) p
          "File does not start with expected TTF header"))
    else if ext = ".otf" then
      if b 0 = 0x4F ∧ b 1 = 0x54 ∧ b 2 = 0x54 ∧ b 3 = 0x4F then .ok ()
      else
        .error (.inl (.invalidFont
          ("Invalid OTF file signature: " ++ pathToString p) p
          "File does not start with OTTO header"))
    else if ext = ".woff" then
      if b 0 = 0x77 ∧ b 1 = 0x4F ∧ b 2 = 0x46 ∧ b 3 = 0x46 then .ok ()
      else
        .error (.inl (.invalidFont
          ("Invalid WOFF file signature: " ++ pathToString p) p
          "File does not start with wOFF header"))
    else if ext = ".woff2" then
      if b 0 = 0x77 ∧ b 1 = 0x4F ∧ b 2 = 0x46 ∧ b 3 = 0x32 then .ok ()
      else
        .error (.inl (.invalidFont
          ("Invalid WOFF2 file signature: " ++ pathToString p) p
          "File does not start with wOF2 header"))
    else .ok ()

/-- `validateFontFile` over the filesystem. -/
def validateFontFile (fs : FS) (p : FPath) : Except VErr Unit :=
  validateFontFileCore (fsReadFile fs p) p

/-- The validation `try/catch` at the top of `optimizeFont`:
`ValidationError`, `UnsupportedFormatError` and `InvalidFontError` are
re-raised as-is (the validators construct no other typed kind); everything
else — a raw filesystem error here — is wrapped into a
`FontOptimizationError`. -/
def wrapValidation (e : VErr) (inputPath : FPath) : PFKError :=
  match e with
  | .inl pe => pe
  | .inr _ => .fontOptimization "Validation failed" inputPath

/-- Both validators in order, with the wrapping `catch`. -/
def validateAll (fs : FS) (opts : OptimizationOptions) :
    Except PFKError Unit :=
  match validateOptimizationOptions fs opts with
  | .error e => .error (wrapValidation e opts.inputPath)
  | .ok _ =>
    match validateFontFile fs opts.inputPath with
    | .error e => .error (wrapValidation e opts.inputPath)
    | .ok _ => .ok ()

/-! ## CSS generation (utils/css is not among the provided sources) -/

/-- `FontFaceOptions` from utils/css (reconstructed from its call sites:
`fontStyle` is optional and defaults to `normal`). -/
structure FontFaceOptions where
  fontFamily : String
  fontPath : String
  fontWeight : Int
  fontStyle : Option String
  fontDisplay : String
deriving DecidableEq, Repr

/-- Modelled from the spec: `generateFontFace` from utils/css is not under
src/; per the spec it deterministically renders one `@font-face` CSS
fragment for the resolved family, path, weight, style and display. -/
def generateFontFace (o : FontFaceOptions) : String :=
  "@font-face \x7b\n  font-family: \x27" ++ o.fontFamily ++
  "\x27;\n  src: url(\x27" ++ o.fontPath ++
  "\x27);\n  font-weight: " ++ toString o.fontWeight ++
  ";\n  font-style: " ++ o.fontStyle.getD "normal" ++
  ";\n  font-display: " ++ o.fontDisplay ++ ";\n\x7d"

/-- Modelled from the spec: `generateCSSFile` from utils/css is not under
src/; per the spec (§6.2) the stylesheet is a header comment block holding
the given comment lines followed by one `@font-face` block per font. -/
def generateCSSFile (faces : List FontFaceOptions) (comments : List String) :
    String :=
  "/* " ++ String.intercalate "\n" comments ++ " */\n\n" ++
  String.intercalate "\n\n" (faces.map generateFontFace) ++ "\n"

/-! ## Optimizer module (optimizeFont and friends) -/

/-- The external subsetting engine (`subset-font`): an opaque collaborator
taking (font bytes, character text, target format). -/
abbrev Engine := List Nat → String → String → Except String (List Nat)

/-- Outcome of one `optimizeFont` call, instrumented with the number of
subsetting-engine invocations and of cache `get` consultations the call
performed. -/
structure RunResult where
  res : Except PFKError OptimizationResult
  fs : FS
  engineCalls : Nat
  cacheGets : Nat

/-- The request's effective subsets (destructuring default). -/
def effSubsets (opts : OptimizationOptions) : List String :=
  opts.subsets.getD DEFAULT_SUBSETS

/-- The request's effective output format (destructuring default). -/
def effFormat (opts : OptimizationOptions) : String :=
  opts.format.getD "woff2"

/-- `format === "ttf" ? "truetype" : format`. -/
def targetFormatOf (opts : OptimizationOptions) : String :=
  if effFormat opts = "ttf" then "truetype" else effFormat opts

/-- The resolved family name: `fontFamily || basename(input, extname(input))`
(the empty string is falsy in JavaScript). -/
def familyOf (opts : OptimizationOptions) : String :=
  let derived :=
    basenameStripStr (pathBasename opts.inputPath) (pathExtname opts.inputPath)
  match opts.fontFamily with
  | some f => if f = "" then derived else f
  | none => derived

/-- The output file name: hash-suffixed when `useHash` (the default), bare
base name plus target extension otherwise. -/
def outputFilenameOf (opts : OptimizationOptions) (originalName : String)
    (sb : List Nat) : String :=
  if opts.useHash.getD true then
    generateOptimizedFilename originalName (generateHash sb)
      ("." ++ effFormat opts)
  else
    basenameStripStr originalName (extnameStr originalName) ++ "." ++
      effFormat opts

/-- `path.join(outputDir, outputFilename)`. -/
def outputPathOf (opts : OptimizationOptions) (originalName : String)
    (sb : List Nat) : FPath :=
  opts.outputDir ++ [outputFilenameOf opts originalName sb]

/-- The cache handle `optimizeFont` obtains (`getGlobalCache(cacheDir)`). -/
def cacheOf (opts : OptimizationOptions) : FontCache :=
  ⟨opts.cacheDir.getD defaultCacheDir⟩

/-- The body of `optimizeFont` after validation and the cache consultation
(the big `try` block): metadata, family resolution, read, empty-buffer
check, character-set resolution, engine call, empty-subset check, output
naming, write, re-stat, reduction, CSS, optional cache store.  Raw
filesystem errors inside the block are wrapped into
`FontOptimizationError`s by the surrounding `catch`. -/
def optimizePipeline (engine : Engine) (now : Int) (opts : OptimizationOptions)
    (c : FontCache) (fs1 : FS) (cacheEnabled : Bool) (gets : Nat) : RunResult :=
  let inputPath := opts.inputPath
  match getFontMetadata fs1 inputPath with
  | .error _ =>
    ⟨.error (.fontOptimization "Font optimization failed: stat" inputPath),
     fs1, 0, gets⟩
  | .ok originalMeta =>
    match fsReadFile fs1 inputPath with
    | .error _ =>
      ⟨.error (.fontOptimization "Font optimization failed: read" inputPath),
       fs1, 0, gets⟩
    | .ok dIn =>
      let fontBuffer := dIn.toBytes
      if fontBuffer.length = 0 then
        ⟨.error (.fontOptimization
          "Font file is empty or could not be read" inputPath), fs1, 0, gets⟩
      else
        let text := String.mk (getSubsetCharacters (effSubsets opts))
        if text.length = 0 then
          ⟨.error (.fontOptimization
            "No characters to subset. Check subset configuration." inputPath),
           fs1, 0, gets⟩
        else
          match engine fontBuffer text (targetFormatOf opts) with
          | .error msg =>
            ⟨.error (.fontOptimization ("Failed to subset font: " ++ msg)
              inputPath), fs1, 1, gets⟩
          | .ok subsetBuffer =>
            if subsetBuffer.length = 0 then
              ⟨.error (.fontOptimization
                "Font subsetting produced empty result" inputPath),
               fs1, 1, gets⟩
            else
              let outputPath :=
                outputPathOf opts originalMeta.name subsetBuffer
              match writeFileBuffer fs1 outputPath (.bytes subsetBuffer) with
              | (.error _, fs2) =>
                ⟨.error (.fontOptimization
                  "Font optimization failed: write" inputPath), fs2, 1, gets⟩
              | (.ok _, fs2) =>
                match getFontMetadata fs2 outputPath with
                | .error _ =>
                  ⟨.error (.fontOptimization
                    "Font optimization failed: stat output" inputPath),
                   fs2, 1, gets⟩
                | .ok optimizedMeta =>
                  let result : OptimizationResult :=
                    ⟨originalMeta, optimizedMeta,
                     calculateReduction originalMeta.size optimizedMeta.size,
                     generateFontFace
                       ⟨familyOf opts,
                        "./" ++ outputFilenameOf opts originalMeta.name
                          subsetBuffer,
                        opts.fontWeight.getD 400,
                        some (opts.fontStyle.getD "normal"),
                        opts.fontDisplay.getD "swap"⟩,
                     familyOf opts, opts.fontWeight.getD 400⟩
                  if cacheEnabled then
                    ⟨.ok result, FontCache.setP c fs2 inputPath result now,
                     1, gets⟩
                  else ⟨.ok result, fs2, 1, gets⟩

/-- `optimizeFont`: validate (validation errors re-raised before any cache
lookup or write), consult the cache when enabled (returning a hit
verbatim), otherwise run the pipeline.  The process-global cache singleton
of `getGlobalCache` is modelled by constructing the cache handle from the
request's directory (claims use a single cache directory per scenario). -/
def optimizeFont (engine : Engine) (now : Int) (opts : OptimizationOptions)
    (fs : FS) : RunResult :=
  match validateAll fs opts with
  | .error e => ⟨.error e, fs, 0, 0⟩
  | .ok _ =>
    if opts.cache.getD true then
      match FontCache.getP (cacheOf opts) fs opts.inputPath with
      | (some cached, fs1) => ⟨.ok cached, fs1, 0, 1⟩
      | (none, fs1) => optimizePipeline engine now opts (cacheOf opts) fs1 true 1
    else optimizePipeline engine now opts (cacheOf opts) fs false 0

/-- `calculateAverageReduction`: reduction of the summed sizes. -/
def calculateAverageReduction (results : List OptimizationResult) : String :=
  calculateReduction ((results.map (fun r => r.original.size)).sum)
    ((results.map (fun r => r.optimized.size)).sum)

/-- `generateOptimizedCSS`: one face per result (display `swap`, style
omitted), a two-line header comment (count, average reduction), written as
one stylesheet. -/
def generateOptimizedCSS (results : List OptimizationResult)
    (outputPath : FPath) (fs : FS) : Except IOErr Unit × FS :=
  let faces : List FontFaceOptions := results.map fun r =>
    ⟨r.fontFamily, "./" ++ pathBasename r.optimized.path, r.fontWeight,
     none, "swap"⟩
  let comments :=
    ["Total fonts: " ++ toString results.length,
     "Average size reduction: " ++ calculateAverageReduction results ++ "%"]
  writeFileBuffer fs outputPath (.text (generateCSSFile faces comments))

/-! ## Lemmas: the association-list filesystem -/

deriving instance DecidableEq for Except

deriving instance DecidableEq for RunResult

theorem lookupFile_removeFile (l : List (FPath × FileData)) (p q : FPath) :
    lookupFile (removeFile l p) q = if q = p then none else lookupFile l q := by
  induction l with
  | nil => simp [removeFile, lookupFile]
  | cons hd tl ih =>
    obtain ⟨a, d⟩ := hd
    by_cases hqp : q = p
    · subst hqp
      by_cases hap : a = q <;> simp [removeFile, lookupFile, hap, ih]
    · by_cases hap : a = p
      · have hpq : ¬p = q := fun h => hqp h.symm
        simp [removeFile, lookupFile, hap, hpq, hqp, ih]
      · simp [removeFile, lookupFile, hap, hqp, ih]

theorem lookupFile_insertFile (l : List (FPath × FileData)) (p q : FPath)
    (d : FileData) :
    lookupFile (insertFile l p d) q =
      if p = q then some d else lookupFile l q := by
  by_cases h : p = q
  · simp [insertFile, lookupFile, h]
  · have h2 : ¬q = p := fun hh => h hh.symm
    simp [insertFile, lookupFile, h, h2, lookupFile_removeFile]

theorem fsFileExistsB_of_lookup {fs : FS} {p : FPath} {d : FileData}
    (h : lookupFile fs.files p = some d)
    (hf : p ∉ fs.failing) : fsFileExistsB fs p = true := by
  simp [fsFileExistsB, h, hf]

theorem fsReadFile_of_lookup {fs : FS} {p : FPath} {d : FileData}
    (h : lookupFile fs.files p = some d)
    (hf : p ∉ fs.failing) : fsReadFile fs p = .ok d := by
  simp [fsReadFile, h, hf]

theorem fsStat_of_lookup {fs : FS} {p : FPath} {d : FileData}
    (h : lookupFile fs.files p = some d)
    (hf : p ∉ fs.failing) :
    fsStat fs p = .ok ⟨true, d.size⟩ := by
  simp [fsStat, h, hf]

theorem fsStat_of_existsB {fs : FS} {p : FPath}
    (h : fsFileExistsB fs p = true) : ∃ st, fsStat fs p = .ok st := by
  simp only [fsFileExistsB, Bool.and_eq_true, Bool.or_eq_true] at h
  obtain ⟨hf, hlk⟩ := h
  have hf2 : p ∉ fs.failing := by simpa using hf
  cases hlk with
  | inl hsome =>
    obtain ⟨d, hd⟩ := Option.isSome_iff_exists.mp hsome
    exact ⟨⟨true, d.size⟩, fsStat_of_lookup hd hf2⟩
  | inr hdir =>
    have hdir2 : p ∈ fs.dirs := List.mem_of_elem_eq_true hdir
    cases hlk2 : lookupFile fs.files p with
    | some d => exact ⟨⟨true, d.size⟩, fsStat_of_lookup hlk2 hf2⟩
    | none =>
      refine ⟨⟨false, 0⟩, ?_⟩
      simp [fsStat, hf2, hlk2, hdir2]

theorem getFileHash_of_lookup {fs : FS} {p : FPath} {d : FileData}
    (h : lookupFile fs.files p = some d)
    (hf : p ∉ fs.failing) :
    getFileHash fs p = .ok (hashBytes d.toBytes) := by
  simp [getFileHash, fsReadFile_of_lookup h hf]

/-! ## Lemmas: cache delete and get -/

theorem deleteP_of_present {c : FontCache} {fs : FS} {p : FPath} {d : FileData}
    (h : lookupFile fs.files (c.cachePathOf p) = some d)
    (hf : c.cachePathOf p ∉ fs.failing) :
    c.deleteP fs p = { fs with files := removeFile fs.files (c.cachePathOf p) } := by
  simp [FontCache.deleteP, FontCache.deleteInner,
    fsFileExistsB_of_lookup h hf, fsUnlink, h, hf]

theorem getInner_hit {c : FontCache} {fs : FS} {p : FPath} {e : CacheEntry}
    {din : FileData}
    (h1 : lookupFile fs.files (c.cachePathOf p) = some (.entryFile e))
    (h2 : c.cachePathOf p ∉ fs.failing)
    (h3 : e.version = cacheVersion)
    (h4 : lookupFile fs.files p = some din)
    (h5 : p ∉ fs.failing)
    (h6 : e.inputHash = hashBytes din.toBytes)
    (h7 : fsFileExistsB fs e.result.outputPath = true) :
    c.getInner fs p = (.ok (some (restoredResult e p)), fs) := by
  obtain ⟨st, hst⟩ := fsStat_of_existsB h7
  simp [FontCache.getInner, fsFileExistsB_of_lookup h1 h2,
    fsReadFile_of_lookup h1 h2, parseEntry, h3,
    getFileHash_of_lookup h4 h5, h6, h7, entryToResult,
    fsStat_of_lookup h4 h5, hst]

theorem getP_hit {c : FontCache} {fs : FS} {p : FPath} {e : CacheEntry}
    {din : FileData}
    (h1 : lookupFile fs.files (c.cachePathOf p) = some (.entryFile e))
    (h2 : c.cachePathOf p ∉ fs.failing)
    (h3 : e.version = cacheVersion)
    (h4 : lookupFile fs.files p = some din)
    (h5 : p ∉ fs.failing)
    (h6 : e.inputHash = hashBytes din.toBytes)
    (h7 : fsFileExistsB fs e.result.outputPath = true) :
    c.getP fs p = (some (restoredResult e p), fs) := by
  simp [FontCache.getP, getInner_hit h1 h2 h3 h4 h5 h6 h7]

theorem getInner_stale {c : FontCache} {fs : FS} {p : FPath} {e : CacheEntry}
    {din : FileData}
    (h1 : lookupFile fs.files (c.cachePathOf p) = some (.entryFile e))
    (h2 : c.cachePathOf p ∉ fs.failing)
    (h3 : e.version = cacheVersion)
    (h4 : lookupFile fs.files p = some din)
    (h5 : p ∉ fs.failing)
    (hstale : e.inputHash ≠ hashBytes din.toBytes ∨
      fsFileExistsB fs e.result.outputPath = false) :
    c.getInner fs p =
      (.ok none, { fs with files := removeFile fs.files (c.cachePathOf p) }) := by
  have hdel := deleteP_of_present h1 h2
  rcases hstale with hneq | hnot
  · simp [FontCache.getInner, fsFileExistsB_of_lookup h1 h2,
      fsReadFile_of_lookup h1 h2, parseEntry, h3,
      getFileHash_of_lookup h4 h5, hneq, hdel]
  · by_cases hh : e.inputHash = hashBytes din.toBytes
    · simp [FontCache.getInner, fsFileExistsB_of_lookup h1 h2,
        fsReadFile_of_lookup h1 h2, parseEntry, h3,
        getFileHash_of_lookup h4 h5, hh, hnot, hdel]
    · simp [FontCache.getInner, fsFileExistsB_of_lookup h1 h2,
        fsReadFile_of_lookup h1 h2, parseEntry, h3,
        getFileHash_of_lookup h4 h5, hh, hdel]

/-! ## Lemmas: cache set -/

/-- The filesystem after a successful `FontCache.set`: cache directory
ensured, entry file written. -/
def fsAfterSet (c : FontCache) (fs : FS) (p : FPath) (r : OptimizationResult)
    (now : Int) (h : Nat) : FS :=
  { fs with
    dirs := if c.cacheDir ∈ fs.dirs then fs.dirs else c.cacheDir :: fs.dirs
    files := insertFile fs.files (c.cachePathOf p)
      (.entryFile (mkEntry h now r)) }

theorem setInner_ok {c : FontCache} {fs : FS} {p : FPath}
    {r : OptimizationResult} {now : Int} {din : FileData}
    (hdirOk : c.cacheDir ∉ fs.failing)
    (hin : lookupFile fs.files p = some din)
    (hinf : p ∉ fs.failing)
    (hcw : c.cachePathOf p ∉ fs.failing) :
    c.setInner fs p r now =
      (.ok (), fsAfterSet c fs p r now (hashBytes din.toBytes)) := by
  by_cases hd : c.cacheDir ∈ fs.dirs
  · simp [FontCache.setInner, ensureDir, fsMkdirRec, hdirOk, hd, getFileHash,
      fsReadFile, hin, hinf, fsWriteFile, hcw, fsAfterSet]
  · simp [FontCache.setInner, ensureDir, fsMkdirRec, hdirOk, hd, getFileHash,
      fsReadFile, hin, hinf, fsWriteFile, hcw, fsAfterSet]

theorem setP_ok {c : FontCache} {fs : FS} {p : FPath}
    {r : OptimizationResult} {now : Int} {din : FileData}
    (hdirOk : c.cacheDir ∉ fs.failing)
    (hin : lookupFile fs.files p = some din)
    (hinf : p ∉ fs.failing)
    (hcw : c.cachePathOf p ∉ fs.failing) :
    c.setP fs p r now = fsAfterSet c fs p r now (hashBytes din.toBytes) := by
  simp [FontCache.setP, setInner_ok hdirOk hin hinf hcw]

/-! ## Claim C1 -/

/-- C1: for every input path with a previously stored cache entry,
`FontCache.get` returns absent (`null`) and removes the entry whenever the
entry is stale — the input's current content hash differs from the hash
stored at set-time, or the optimized artifact referenced by the entry no
longer exists. -/
theorem cache_get_stale_invalidates (c : FontCache) (fs : FS) (p : FPath)
    (e : CacheEntry) (din : FileData)
    (h1 : lookupFile fs.files (c.cachePathOf p) = some (.entryFile e))
    (h2 : c.cachePathOf p ∉ fs.failing)
    (h3 : e.version = cacheVersion)
    (h4 : lookupFile fs.files p = some din)
    (h5 : p ∉ fs.failing)
    (hstale : e.inputHash ≠ hashBytes din.toBytes ∨
      fsFileExistsB fs e.result.outputPath = false) :
    c.get fs p =
      .ok (none, { fs with files := removeFile fs.files (c.cachePathOf p) }) := by
  simp [FontCache.get, getInner_stale h1 h2 h3 h4 h5 hstale]

/-- Witness for C1 at a concrete stale state (content hash differs). -/
theorem cache_get_stale_invalidates_witness :
    (lookupFile
        [((FontCache.mk ["", "c"]).cachePathOf ["", "i.ttf"],
           FileData.entryFile ⟨0, 5, "1.0.0", ⟨3, 2, "33.3", "F", 400, ["", "o.woff2"], "x"⟩⟩),
         (["", "i.ttf"], FileData.bytes [1])]
        ((FontCache.mk ["", "c"]).cachePathOf ["", "i.ttf"]) =
      some (.entryFile ⟨0, 5, "1.0.0", ⟨3, 2, "33.3", "F", 400, ["", "o.woff2"], "x"⟩⟩)) ∧
    (0 : Nat) ≠ hashBytes (FileData.bytes [1]).toBytes ∧
    (FontCache.mk ["", "c"]).get
        ⟨[((FontCache.mk ["", "c"]).cachePathOf ["", "i.ttf"],
            FileData.entryFile ⟨0, 5, "1.0.0", ⟨3, 2, "33.3", "F", 400, ["", "o.woff2"], "x"⟩⟩),
          (["", "i.ttf"], FileData.bytes [1])], [], []⟩
        ["", "i.ttf"] =
      .ok (none, ⟨[(["", "i.ttf"], FileData.bytes [1])], [], []⟩) := by
  refine ⟨by decide, by decide, ?_⟩
  have h := cache_get_stale_invalidates (FontCache.mk ["", "c"])
    ⟨[((FontCache.mk ["", "c"]).cachePathOf ["", "i.ttf"],
        FileData.entryFile ⟨0, 5, "1.0.0", ⟨3, 2, "33.3", "F", 400, ["", "o.woff2"], "x"⟩⟩),
      (["", "i.ttf"], FileData.bytes [1])], [], []⟩
    ["", "i.ttf"]
    ⟨0, 5, "1.0.0", ⟨3, 2, "33.3", "F", 400, ["", "o.woff2"], "x"⟩⟩
    (FileData.bytes [1])
    (by decide) (by decide) (by decide) (by decide) (by decide)
    (Or.inl (by decide))
  simpa using h

/-! ## Claim C2 -/

/-- C2: `set(path, result)` followed immediately by `get(path)` — input
bytes unchanged, referenced artifact still existing — returns a result
whose scalar fields (original size, optimized size, reduction, css,
fontFamily, fontWeight) are identical to those of the stored result. -/
theorem cache_set_get_roundtrip (c : FontCache) (fs : FS) (p : FPath)
    (r : OptimizationResult) (now : Int) (din dart : FileData)
    (hdirOk : c.cacheDir ∉ fs.failing)
    (hin : lookupFile fs.files p = some din)
    (hinf : p ∉ fs.failing)
    (hcw : c.cachePathOf p ∉ fs.failing)
    (hart : lookupFile fs.files r.optimized.path = some dart)
    (hartf : r.optimized.path ∉ fs.failing)
    (hne1 : c.cachePathOf p ≠ p)
    (hne2 : c.cachePathOf p ≠ r.optimized.path) :
    ∃ fs' r',
      c.set fs p r now = .ok fs' ∧
      c.get fs' p = .ok (some r', fs') ∧
      r'.original.size = r.original.size ∧
      r'.optimized.size = r.optimized.size ∧
      r'.reduction = r.reduction ∧
      r'.css = r.css ∧
      r'.fontFamily = r.fontFamily ∧
      r'.fontWeight = r.fontWeight := by
  set e : CacheEntry := mkEntry (hashBytes din.toBytes) now r with he
  set fs' : FS := fsAfterSet c fs p r now (hashBytes din.toBytes) with hfs
  have hset : c.set fs p r now = .ok fs' := by
    simp [FontCache.set, setInner_ok hdirOk hin hinf hcw, hfs]
  have h1 : lookupFile fs'.files (c.cachePathOf p) = some (.entryFile e) := by
    simp [hfs, fsAfterSet, lookupFile_insertFile, he]
  have h4 : lookupFile fs'.files p = some din := by
    simp [hfs, fsAfterSet, lookupFile_insertFile, hne1, hin]
  have hartOut : e.result.outputPath = r.optimized.path := by
    simp [he, mkEntry]
  have h7 : fsFileExistsB fs' e.result.outputPath = true := by
    have : lookupFile fs'.files e.result.outputPath = some dart := by
      rw [hartOut]
      simp [hfs, fsAfterSet, lookupFile_insertFile, hne2, hart]
    refine fsFileExistsB_of_lookup this ?_
    rw [hartOut]
    simpa [hfs, fsAfterSet] using hartf
  have hget := getInner_hit h1 (by simpa [hfs, fsAfterSet] using hcw)
    (by simp [he, mkEntry, cacheVersion]) h4
    (by simpa [hfs, fsAfterSet] using hinf)
    (by simp [he, mkEntry]) h7
  refine ⟨fs', restoredResult e p, hset, ?_, ?_, ?_, ?_, ?_, ?_, ?_⟩ <;>
    simp [FontCache.get, hget, restoredResult, he, mkEntry]

/-- Witness for C2 at a concrete state. -/
theorem cache_set_get_roundtrip_witness :
    ((["", "c"] : FPath) ∉ ([] : List FPath)) ∧
    (lookupFile
        [((["", "i.ttf"] : FPath), FileData.bytes [1, 2, 3]),
         ((["", "o.woff2"] : FPath), FileData.bytes [9, 9])]
        ["", "i.ttf"] = some (.bytes [1, 2, 3])) ∧
    (∃ fs' r',
      (FontCache.mk ["", "c"]).set
          ⟨[(["", "i.ttf"], FileData.bytes [1, 2, 3]),
            (["", "o.woff2"], FileData.bytes [9, 9])], [], []⟩
          ["", "i.ttf"]
          ⟨⟨["", "i.ttf"], "i.ttf", ".ttf", 3, "3 B"⟩,
           ⟨["", "o.woff2"], "o.woff2", ".woff2", 2, "2 B"⟩,
           "33.3", "x", "F", 400⟩ 5 = .ok fs' ∧
      (FontCache.mk ["", "c"]).get fs' ["", "i.ttf"] = .ok (some r', fs') ∧
      r'.original.size = 3 ∧
      r'.optimized.size = 2 ∧
      r'.reduction = "33.3" ∧
      r'.css = "x" ∧
      r'.fontFamily = "F" ∧
      r'.fontWeight = 400) := by
  refine ⟨by decide, by decide, ?_⟩
  have h := cache_set_get_roundtrip (FontCache.mk ["", "c"])
    ⟨[(["", "i.ttf"], FileData.bytes [1, 2, 3]),
      (["", "o.woff2"], FileData.bytes [9, 9])], [], []⟩
    ["", "i.ttf"]
    ⟨⟨["", "i.ttf"], "i.ttf", ".ttf", 3, "3 B"⟩,
     ⟨["", "o.woff2"], "o.woff2", ".woff2", 2, "2 B"⟩,
     "33.3", "x", "F", 400⟩ 5
    (FileData.bytes [1, 2, 3]) (FileData.bytes [9, 9])
    (by decide) (by decide) (by decide) (by decide) (by decide) (by decide)
    (by decide) (by decide)
  exact h

/-! ## Claim C5 -/

/-- C5: for every filesystem state (including missing directories, corrupt
entries and failing paths), no public `FontCache` operation — `get`, `set`,
`delete`, `clear`, `getStats`, `cleanOld` — propagates an exception: each
returns `.ok` (get degrading to a miss, set/delete/clear to best-effort
state, getStats to zero statistics, cleanOld to a zero count). -/
theorem cache_ops_never_throw :
    ∀ (c : FontCache) (fs : FS) (p : FPath) (r : OptimizationResult)
      (now maxAgeMs : Int),
      (∃ v, c.get fs p = .ok v) ∧
      (∃ v, c.set fs p r now = .ok v) ∧
      (∃ v, c.delete fs p = .ok v) ∧
      (∃ v, c.clear fs = .ok v) ∧
      (∃ v, c.getStats fs = .ok v) ∧
      (∃ v, c.cleanOld fs now maxAgeMs = .ok v) := by
  intro c fs p r now maxAgeMs
  refine ⟨?_, ?_, ?_, ?_, ?_, ?_⟩
  · match h : c.getInner fs p with
    | (.ok v, fs') => exact ⟨(v, fs'), by simp [FontCache.get, h]⟩
    | (.error e, fs') => exact ⟨(none, fs'), by simp [FontCache.get, h]⟩
  · match h : c.setInner fs p r now with
    | (.ok v, fs') => exact ⟨fs', by simp [FontCache.set, h]⟩
    | (.error e, fs') => exact ⟨fs', by simp [FontCache.set, h]⟩
  · match h : c.deleteInner fs p with
    | (.ok v, fs') => exact ⟨fs', by simp [FontCache.delete, h]⟩
    | (.error e, fs') => exact ⟨fs', by simp [FontCache.delete, h]⟩
  · match h : c.clearInner fs with
    | (.ok v, fs') => exact ⟨fs', by simp [FontCache.clear, h]⟩
    | (.error e, fs') => exact ⟨fs', by simp [FontCache.clear, h]⟩
  · match h : c.getStatsInner fs with
    | .ok v => exact ⟨v, by simp [FontCache.getStats, h]⟩
    | .error e => exact ⟨⟨0, 0, none, none⟩, by simp [FontCache.getStats, h]⟩
  · match h : c.cleanOldInner fs now maxAgeMs with
    | (.ok v, fs') => exact ⟨(v, fs'), by simp [FontCache.cleanOld, h]⟩
    | (.error e, fs') => exact ⟨(0, fs'), by simp [FontCache.cleanOld, h]⟩

/-! ## Lemmas: cleanOld -/

theorem childNameOf_eq : ∀ {dir p : FPath} {n : String},
    childNameOf dir p = some n → p = dir ++ [n]
  | [], [], n => by simp [childNameOf]
  | [], [x], n => by
    simp only [childNameOf, Option.some_inj]
    rintro rfl
    rfl
  | [], x :: y :: rest, n => by simp [childNameOf]
  | d :: dir, [], n => by simp [childNameOf]
  | d :: dir, q :: p, n => by
    simp only [childNameOf]
    by_cases h : d = q
    · subst h
      intro hrec
      have := childNameOf_eq (by simpa using hrec)
      simp [this]
    · simp [h]

/-- Whether `cleanOld` deletes the cache-directory child `n` of `fs`:
a `.json` name holding a parseable entry strictly older than
`now - maxAgeMs`, on a non-failing path. -/
def delCond (c : FontCache) (fs : FS) (now maxAgeMs : Int) (n : String) : Bool :=
  endsWithB n ".json" &&
  !(fs.failing.contains (c.cacheDir ++ [n])) &&
  (match lookupFile fs.files (c.cacheDir ++ [n]) with
   | some (.entryFile e) => decide (now - e.timestamp > maxAgeMs)
   | _ => false)

/-- Remove a list of paths from the file map. -/
def removePaths (l : List (FPath × FileData)) (ps : List FPath) :
    List (FPath × FileData) :=
  ps.foldl removeFile l

theorem delCond_congr_of_remove {c : FontCache} {fs : FS} {now maxAgeMs : Int}
    {n m : String} (hnm : m ≠ n) :
    delCond c { fs with files := removeFile fs.files (c.cacheDir ++ [n]) }
        now maxAgeMs m = delCond c fs now maxAgeMs m := by
  have hpq : (c.cacheDir ++ [m] : FPath) ≠ c.cacheDir ++ [n] := by
    intro h
    exact hnm (by simpa using List.append_cancel_left h)
  simp [delCond, lookupFile_removeFile, hpq]

theorem cleanLoop_spec (c : FontCache) (now maxAgeMs : Int) :
    ∀ (names : List String) (fs : FS) (acc : Nat), names.Nodup →
    cleanLoop c now maxAgeMs names fs acc =
      (acc + names.countP (delCond c fs now maxAgeMs),
       { fs with files := (removePaths fs.files
          ((names.filter (delCond c fs now maxAgeMs)).map
            (fun n => c.cacheDir ++ [n]))) })
  | [], fs, acc, _ => by simp [cleanLoop, removePaths]
  | n :: rest, fs, acc, hnodup => by
    have htail : rest.Nodup := hnodup.of_cons
    have hnotmem : n ∉ rest := by
      intro hmem
      exact (List.nodup_cons.mp hnodup).1 hmem
    by_cases hj : endsWithB n ".json"
    · by_cases hfail : (c.cacheDir ++ [n] : FPath) ∈ fs.failing
      · have hdel : delCond c fs now maxAgeMs n = false := by
          simp [delCond, hfail]
        have hread : fsReadFile fs (c.cacheDir ++ [n]) = .error .eacces := by
          simp [fsReadFile, hfail]
        simp [cleanLoop, hj, hread, cleanLoop_spec c now maxAgeMs rest fs acc htail,
          List.countP_cons, hdel, List.filter_cons, removePaths]
      · cases hlk : lookupFile fs.files (c.cacheDir ++ [n]) with
        | none =>
          have hdel : delCond c fs now maxAgeMs n = false := by
            simp [delCond, hlk]
          have hread : fsReadFile fs (c.cacheDir ++ [n]) = .error .enoent := by
            simp [fsReadFile, hfail, hlk]
          simp [cleanLoop, hj, hread,
            cleanLoop_spec c now maxAgeMs rest fs acc htail,
            List.countP_cons, hdel, List.filter_cons, removePaths]
        | some d =>
          have hread : fsReadFile fs (c.cacheDir ++ [n]) = .ok d :=
            fsReadFile_of_lookup hlk hfail
          cases d with
          | bytes bs =>
            have hdel : delCond c fs now maxAgeMs n = false := by
              simp [delCond, hlk]
            simp [cleanLoop, hj, hread, parseEntry,
              cleanLoop_spec c now maxAgeMs rest fs acc htail,
              List.countP_cons, hdel, List.filter_cons, removePaths]
          | text s =>
            have hdel : delCond c fs now maxAgeMs n = false := by
              simp [delCond, hlk]
            simp [cleanLoop, hj, hread, parseEntry,
              cleanLoop_spec c now maxAgeMs rest fs acc htail,
              List.countP_cons, hdel, List.filter_cons, removePaths]
          | entryFile e =>
            by_cases hage : now - e.timestamp > maxAgeMs
            · have hdel : delCond c fs now maxAgeMs n = true := by
                simp [delCond, hj, hfail, hlk, hage]
              have hunlink : fsUnlink fs (c.cacheDir ++ [n]) =
                  .ok { fs with files := removeFile fs.files (c.cacheDir ++ [n]) } := by
                simp [fsUnlink, hfail, hlk]
              set fs2 : FS :=
                { fs with files := removeFile fs.files (c.cacheDir ++ [n]) }
                with hfs2
              have hcongr : ∀ m ∈ rest,
                  delCond c fs2 now maxAgeMs m = delCond c fs now maxAgeMs m := by
                intro m hm
                exact delCond_congr_of_remove (fun hmn => hnotmem (hmn ▸ hm))
              have hcount : rest.countP (delCond c fs2 now maxAgeMs) =
                  rest.countP (delCond c fs now maxAgeMs) :=
                List.countP_congr (fun x hx => by rw [hcongr x hx])
              have hfilter : rest.filter (delCond c fs2 now maxAgeMs) =
                  rest.filter (delCond c fs now maxAgeMs) :=
                List.filter_congr hcongr
              have ih := cleanLoop_spec c now maxAgeMs rest fs2 (acc + 1) htail
              rw [hcount, hfilter] at ih
              simp only [cleanLoop, hj, Bool.true_eq_false, if_false, hread,
                parseEntry, hage, if_true, hunlink, ih]
              simp only [Prod.mk.injEq]
              refine ⟨?_, ?_⟩
              · simp [List.countP_cons, hdel]
                omega
              · simp [List.filter_cons, hdel, removePaths, hfs2]
            · have hdel : delCond c fs now maxAgeMs n = false := by
                simp [delCond, hlk, hage]
              simp [cleanLoop, hj, hread, parseEntry, hage,
                cleanLoop_spec c now maxAgeMs rest fs acc htail,
                List.countP_cons, hdel, List.filter_cons, removePaths]
    · have hdel : delCond c fs now maxAgeMs n = false := by
        simp [delCond, hj]
      simp [cleanLoop, hj, cleanLoop_spec c now maxAgeMs rest fs acc htail,
        List.countP_cons, hdel, List.filter_cons, removePaths]

theorem nodup_childNames {fs : FS} {dir : FPath}
    (h : (fs.files.map Prod.fst).Nodup) :
    (fs.files.filterMap (fun pr => childNameOf dir pr.1)).Nodup := by
  have heq : fs.files.filterMap (fun pr => childNameOf dir pr.1) =
      (fs.files.map Prod.fst).filterMap (childNameOf dir) := by
    rw [List.filterMap_map]
    rfl
  rw [heq]
  refine List.Nodup.filterMap ?_ h
  intro a a' b hb hb'
  rw [Option.mem_def] at hb hb'
  rw [childNameOf_eq hb, childNameOf_eq hb']

/-! ## Claim C9 -/

/-- C9 counterexample: the age test is strict (`now - timestamp > maxAgeMs`),
so `cleanOld(0)` does not remove an entry whose timestamp equals the current
time — refuting "cleanOld(0) removes all entries regardless of age".  Here a
parseable `.json` entry timestamped at `now = 5` survives `cleanOld(0)` and
the deleted count is `0`, not `1`. -/
theorem cleanOld_zero_keeps_age_zero_entry :
    (FontCache.mk ["", "c"]).cleanOld
        ⟨[(["", "c", "e.json"],
           FileData.entryFile ⟨0, 5, "1.0.0", ⟨3, 2, "33.3", "F", 400, ["", "o"], "x"⟩⟩)],
         [["", "c"]], []⟩ 5 0 =
      .ok (0,
        ⟨[(["", "c", "e.json"],
           FileData.entryFile ⟨0, 5, "1.0.0", ⟨3, 2, "33.3", "F", 400, ["", "o"], "x"⟩⟩)],
         [["", "c"]], []⟩) ∧
    lookupFile
        [(["", "c", "e.json"],
          FileData.entryFile ⟨0, 5, "1.0.0", ⟨3, 2, "33.3", "F", 400, ["", "o"], "x"⟩⟩)]
        ["", "c", "e.json"] =
      some (.entryFile ⟨0, 5, "1.0.0", ⟨3, 2, "33.3", "F", 400, ["", "o"], "x"⟩⟩) := by
  constructor
  · decide
  · decide

/-- C9 (amended): `cleanOld(maxAgeMs)` deletes exactly the readable,
parseable `.json` entries under the cache directory whose timestamp is
STRICTLY older than `now - maxAgeMs`, and returns their number; hence
`cleanOld(0)` removes exactly the entries strictly older than `now` (an
entry timestamped at or after the current instant is kept), and `cleanOld`
with a bound at least every entry's age removes none. -/
theorem cleanOld_deletes_exactly_stale (c : FontCache) (fs : FS)
    (now maxAgeMs : Int)
    (hdir : c.cacheDir ∈ fs.dirs)
    (hdirf : c.cacheDir ∉ fs.failing)
    (hnodup : (fs.files.map Prod.fst).Nodup) :
    c.cleanOld fs now maxAgeMs =
      .ok
        ((fs.files.filterMap (fun pr => childNameOf c.cacheDir pr.1)).countP
           (delCond c fs now maxAgeMs),
         { fs with files := (removePaths fs.files
            (((fs.files.filterMap (fun pr => childNameOf c.cacheDir pr.1)).filter
               (delCond c fs now maxAgeMs)).map (fun n => c.cacheDir ++ [n]))) }) := by
  have hex : fsFileExistsB fs c.cacheDir = true := by
    simp [fsFileExistsB, hdirf, hdir]
  have hrd : fsReaddir fs c.cacheDir =
      .ok (fs.files.filterMap (fun pr => childNameOf c.cacheDir pr.1)) := by
    simp [fsReaddir, hdirf, hdir]
  have hloop := cleanLoop_spec c now maxAgeMs
    (fs.files.filterMap (fun pr => childNameOf c.cacheDir pr.1)) fs 0
    (nodup_childNames hnodup)
  simp [FontCache.cleanOld, FontCache.cleanOldInner, hex, hrd, hloop]

/-- Witness for the amended C9: one stale entry deleted, one fresh entry and
one non-entry file kept. -/
theorem cleanOld_deletes_exactly_stale_witness :
    ((["", "c"] : FPath) ∈ [(["", "c"] : FPath)]) ∧
    (FontCache.mk ["", "c"]).cleanOld
        ⟨[(["", "c", "old.json"],
           FileData.entryFile ⟨0, 0, "1.0.0", ⟨3, 2, "33.3", "F", 400, ["", "o"], "x"⟩⟩),
          (["", "c", "new.json"],
           FileData.entryFile ⟨0, 9, "1.0.0", ⟨3, 2, "33.3", "F", 400, ["", "o"], "x"⟩⟩),
          (["", "c", "notes.txt"], FileData.text "hi")],
         [["", "c"]], []⟩ 10 5 =
      .ok (1,
        ⟨[(["", "c", "new.json"],
           FileData.entryFile ⟨0, 9, "1.0.0", ⟨3, 2, "33.3", "F", 400, ["", "o"], "x"⟩⟩),
          (["", "c", "notes.txt"], FileData.text "hi")],
         [["", "c"]], []⟩) := by
  refine ⟨by decide, ?_⟩
  have h := cleanOld_deletes_exactly_stale (FontCache.mk ["", "c"])
    ⟨[(["", "c", "old.json"],
       FileData.entryFile ⟨0, 0, "1.0.0", ⟨3, 2, "33.3", "F", 400, ["", "o"], "x"⟩⟩),
      (["", "c", "new.json"],
       FileData.entryFile ⟨0, 9, "1.0.0", ⟨3, 2, "33.3", "F", 400, ["", "o"], "x"⟩⟩),
      (["", "c", "notes.txt"], FileData.text "hi")],
     [["", "c"]], []⟩ 10 5
    (by decide) (by decide) (by decide)
  rw [h]
  decide

/-! ## Claim C6 -/

/-- C6: a 0-byte input with a recognized font extension makes `optimizeFont`
raise an invalid-font error (not a transformation failure) from validation:
before any cache lookup (`cacheGets = 0`), any engine call
(`engineCalls = 0`) or any write (the filesystem is unchanged). -/
theorem optimizeFont_empty_file_invalid_font (engine : Engine) (now : Int)
    (opts : OptimizationOptions) (fs : FS) (d : FileData)
    (hne : opts.inputPath ≠ [])
    (hlk : lookupFile fs.files opts.inputPath = some d)
    (hf : opts.inputPath ∉ fs.failing)
    (hext : toLowerStr (pathExtname opts.inputPath) ∈ SUPPORTED_FORMATS)
    (hsize : d.size = 0) :
    optimizeFont engine now opts fs =
      ⟨.error (.invalidFont
          ("Font file is empty: " ++ pathToString opts.inputPath)
          opts.inputPath "File size is 0 bytes"), fs, 0, 0⟩ := by
  have hex := fsFileExistsB_of_lookup hlk hf
  have hst := fsStat_of_lookup hlk hf
  simp [optimizeFont, validateAll, validateOptimizationOptions,
    validateOptsCore, hne, hex, hst, hext, hsize, wrapValidation]

/-- Witness for C6: an empty `.ttf` file. -/
theorem optimizeFont_empty_file_invalid_font_witness :
    (lookupFile [((["", "e.ttf"] : FPath), FileData.bytes [])] ["", "e.ttf"] =
      some (.bytes [])) ∧
    (FileData.bytes []).size = 0 ∧
    optimizeFont (fun _ _ _ => .error "unused") 0
        ⟨["", "e.ttf"], ["", "out"], none, none, none, none, none, none,
         none, none, none⟩
        ⟨[(["", "e.ttf"], FileData.bytes [])], [], []⟩ =
      ⟨.error (.invalidFont ("Font file is empty: " ++ pathToString ["", "e.ttf"])
          ["", "e.ttf"] "File size is 0 bytes"),
       ⟨[(["", "e.ttf"], FileData.bytes [])], [], []⟩, 0, 0⟩ := by
  refine ⟨by decide, by decide, ?_⟩
  exact optimizeFont_empty_file_invalid_font (fun _ _ _ => .error "unused") 0
    ⟨["", "e.ttf"], ["", "out"], none, none, none, none, none, none,
     none, none, none⟩
    ⟨[(["", "e.ttf"], FileData.bytes [])], [], []⟩
    (FileData.bytes [])
    (by decide) (by decide) (by decide) (by decide) (by decide)

/-! ## Claim C7 -/

/-- C7: an otherwise-valid request whose `fontWeight` lies outside
`[100, 900]` makes `optimizeFont` raise a validation error naming the field
`fontWeight`, before any cache lookup (`cacheGets = 0`) or filesystem write
(the filesystem is unchanged). -/
theorem optimizeFont_bad_weight_validation_error (engine : Engine) (now : Int)
    (opts : OptimizationOptions) (fs : FS) (d : FileData) (w : Int)
    (hne : opts.inputPath ≠ [])
    (hlk : lookupFile fs.files opts.inputPath = some d)
    (hf : opts.inputPath ∉ fs.failing)
    (hext : toLowerStr (pathExtname opts.inputPath) ∈ SUPPORTED_FORMATS)
    (hsize : d.size ≠ 0)
    (hout : opts.outputDir ≠ [])
    (hfmt : ∀ f, opts.format = some f → f ≠ "" → f ∈ SUPPORTED_OUTPUT_FORMATS)
    (hw : opts.fontWeight = some w)
    (hwr : w < 100 ∨ w > 900) :
    optimizeFont engine now opts fs =
      ⟨.error (.validation
          ("Font weight must be between 100 and 900, got: " ++ toString w)
          "fontWeight"), fs, 0, 0⟩ := by
  have hex := fsFileExistsB_of_lookup hlk hf
  have hst := fsStat_of_lookup hlk hf
  have htail : validateOptsCore.validateOptsTail opts =
      .error (.inl (.validation
        ("Font weight must be between 100 and 900, got: " ++ toString w)
        "fontWeight")) := by
    have hwr2 : w < 100 ∨ 900 < w := hwr
    simp [validateOptsCore.validateOptsTail, hw, hwr2]
  cases hfv : opts.format with
  | none =>
    simp [optimizeFont, validateAll, validateOptimizationOptions,
      validateOptsCore, hne, hex, hst, hext, hsize, hout, hfv, htail,
      wrapValidation]
  | some f =>
    by_cases hfe : f = ""
    · simp [optimizeFont, validateAll, validateOptimizationOptions,
        validateOptsCore, hne, hex, hst, hext, hsize, hout, hfv, hfe, htail,
        wrapValidation]
    · have hfin : f ∈ SUPPORTED_OUTPUT_FORMATS := hfmt f hfv hfe
      simp [optimizeFont, validateAll, validateOptimizationOptions,
        validateOptsCore, hne, hex, hst, hext, hsize, hout, hfv, hfe, hfin,
        htail, wrapValidation]

/-- Witness for C7: `fontWeight: 1000`. -/
theorem optimizeFont_bad_weight_validation_error_witness :
    ((1000 : Int) > 900) ∧
    optimizeFont (fun _ _ _ => .error "unused") 0
        ⟨["", "v.ttf"], ["", "out"], none, some 1000, none, none, none, none,
         none, none, none⟩
        ⟨[(["", "v.ttf"], FileData.bytes [1, 2])], [], []⟩ =
      ⟨.error (.validation
          ("Font weight must be between 100 and 900, got: " ++ toString (1000 : Int))
          "fontWeight"),
       ⟨[(["", "v.ttf"], FileData.bytes [1, 2])], [], []⟩, 0, 0⟩ := by
  refine ⟨by decide, ?_⟩
  exact optimizeFont_bad_weight_validation_error (fun _ _ _ => .error "unused")
    0
    ⟨["", "v.ttf"], ["", "out"], none, some 1000, none, none, none, none,
     none, none, none⟩
    ⟨[(["", "v.ttf"], FileData.bytes [1, 2])], [], []⟩
    (FileData.bytes [1, 2]) 1000
    (by decide) (by decide) (by decide) (by decide) (by decide) (by decide)
    (by intro f hf; simp at hf) (by decide) (by decide)

/-! ## Claim C4 -/

/-- C4: the cache key is derived from the resolved absolute input path only
(first conjunct), so a cache-enabled `optimizeFont` call that finds a fresh
entry for an unchanged input returns the cached result — computed under the
first call's parameters — verbatim, whatever the current request's subsets,
format, weight or style (which appear nowhere in the hypotheses), with no
engine call and no re-validation of those parameters against the cached
result. -/
theorem optimizeFont_path_only_cache_key (engine : Engine) (now : Int)
    (opts : OptimizationOptions) (fs : FS) (e : CacheEntry) (din : FileData)
    (hva : validateAll fs opts = .ok ())
    (hcache : opts.cache.getD true = true)
    (h1 : lookupFile fs.files ((cacheOf opts).cachePathOf opts.inputPath) =
      some (.entryFile e))
    (h2 : (cacheOf opts).cachePathOf opts.inputPath ∉ fs.failing)
    (h3 : e.version = cacheVersion)
    (h4 : lookupFile fs.files opts.inputPath = some din)
    (h5 : opts.inputPath ∉ fs.failing)
    (h6 : e.inputHash = hashBytes din.toBytes)
    (h7 : fsFileExistsB fs e.result.outputPath = true) :
    (∀ o₁ o₂ : OptimizationOptions, o₁.inputPath = o₂.inputPath →
      getCacheKey o₁.inputPath = getCacheKey o₂.inputPath) ∧
    optimizeFont engine now opts fs =
      ⟨.ok (restoredResult e opts.inputPath), fs, 0, 1⟩ := by
  refine ⟨fun o₁ o₂ h => by rw [h], ?_⟩
  simp [optimizeFont, hva, hcache, getP_hit h1 h2 h3 h4 h5 h6 h7]

/-- Witness for C4: the request asks for weight 700, format woff, latin
subsets; the cached entry was computed under weight 400 and is returned
as-is. -/
theorem optimizeFont_path_only_cache_key_witness :
    (some (700 : Int) = (⟨["", "i.ttf"], ["", "out"], none, some 700,
        none, some ["latin"], some "woff", none, none, none,
        none⟩ : OptimizationOptions).fontWeight) ∧
    (restoredResult
        ⟨hashBytes [0, 1, 0, 0], 3, "1.0.0",
         ⟨4, 2, "50.0", "F", 400, ["", "o.woff2"], "c"⟩⟩
        ["", "i.ttf"]).fontWeight = 400 ∧
    optimizeFont (fun _ _ _ => .error "unused") 9
        ⟨["", "i.ttf"], ["", "out"], none, some 700, none, some ["latin"],
         some "woff", none, none, none, none⟩
        ⟨[((cacheOf ⟨["", "i.ttf"], ["", "out"], none, some 700, none,
              some ["latin"], some "woff", none, none, none,
              none⟩).cachePathOf ["", "i.ttf"],
           FileData.entryFile
             ⟨hashBytes [0, 1, 0, 0], 3, "1.0.0",
              ⟨4, 2, "50.0", "F", 400, ["", "o.woff2"], "c"⟩⟩),
          (["", "i.ttf"], FileData.bytes [0, 1, 0, 0]),
          (["", "o.woff2"], FileData.bytes [9])], [], []⟩ =
      ⟨.ok (restoredResult
          ⟨hashBytes [0, 1, 0, 0], 3, "1.0.0",
           ⟨4, 2, "50.0", "F", 400, ["", "o.woff2"], "c"⟩⟩
          ["", "i.ttf"]),
       ⟨[((cacheOf ⟨["", "i.ttf"], ["", "out"], none, some 700, none,
              some ["latin"], some "woff", none, none, none,
              none⟩).cachePathOf ["", "i.ttf"],
           FileData.entryFile
             ⟨hashBytes [0, 1, 0, 0], 3, "1.0.0",
              ⟨4, 2, "50.0", "F", 400, ["", "o.woff2"], "c"⟩⟩),
          (["", "i.ttf"], FileData.bytes [0, 1, 0, 0]),
          (["", "o.woff2"], FileData.bytes [9])], [], []⟩, 0, 1⟩ := by
  refine ⟨by decide, by decide, ?_⟩
  have h := (optimizeFont_path_only_cache_key (fun _ _ _ => .error "unused") 9
    ⟨["", "i.ttf"], ["", "out"], none, some 700, none, some ["latin"],
     some "woff", none, none, none, none⟩
    ⟨[((cacheOf ⟨["", "i.ttf"], ["", "out"], none, some 700, none,
          some ["latin"], some "woff", none, none, none,
          none⟩).cachePathOf ["", "i.ttf"],
       FileData.entryFile
         ⟨hashBytes [0, 1, 0, 0], 3, "1.0.0",
          ⟨4, 2, "50.0", "F", 400, ["", "o.woff2"], "c"⟩⟩),
      (["", "i.ttf"], FileData.bytes [0, 1, 0, 0]),
      (["", "o.woff2"], FileData.bytes [9])], [], []⟩
    ⟨hashBytes [0, 1, 0, 0], 3, "1.0.0",
     ⟨4, 2, "50.0", "F", 400, ["", "o.woff2"], "c"⟩⟩
    (FileData.bytes [0, 1, 0, 0])
    (by decide) (by decide) (by decide) (by decide) (by decide) (by decide)
    (by decide) (by decide) (by decide))
  exact h.2

/-! ## Claim C8 -/

/-- C8 counterexample: a request whose subset list is empty (so the
character union is empty) is NOT rejected when caching is enabled and a
fresh cache entry exists for the input path — `optimizeFont` returns the
cached result successfully (the character set is never resolved), so the
claim's unconditional "rejects the request with an error" fails. -/
theorem optimizeFont_empty_subsets_not_rejected_on_hit :
    getSubsetCharacters [] = [] ∧
    optimizeFont (fun _ _ _ => .error "unused") 9
        ⟨["", "i.ttf"], ["", "out"], none, none, none, some [], none, none,
         none, none, none⟩
        ⟨[((cacheOf ⟨["", "i.ttf"], ["", "out"], none, none, none, some [],
              none, none, none, none, none⟩).cachePathOf ["", "i.ttf"],
           FileData.entryFile
             ⟨hashBytes [0, 1, 0, 0], 3, "1.0.0",
              ⟨4, 2, "50.0", "F", 400, ["", "o.woff2"], "c"⟩⟩),
          (["", "i.ttf"], FileData.bytes [0, 1, 0, 0]),
          (["", "o.woff2"], FileData.bytes [9])], [], []⟩ =
      ⟨.ok (restoredResult
          ⟨hashBytes [0, 1, 0, 0], 3, "1.0.0",
           ⟨4, 2, "50.0", "F", 400, ["", "o.woff2"], "c"⟩⟩
          ["", "i.ttf"]),
       ⟨[((cacheOf ⟨["", "i.ttf"], ["", "out"], none, none, none, some [],
              none, none, none, none, none⟩).cachePathOf ["", "i.ttf"],
           FileData.entryFile
             ⟨hashBytes [0, 1, 0, 0], 3, "1.0.0",
              ⟨4, 2, "50.0", "F", 400, ["", "o.woff2"], "c"⟩⟩),
          (["", "i.ttf"], FileData.bytes [0, 1, 0, 0]),
          (["", "o.woff2"], FileData.bytes [9])], [], []⟩, 0, 1⟩ := by
  constructor
  · decide
  · decide

/-- C8 (amended): when the cache misses (or caching is disabled), a request
whose subsets resolve to an empty character union — an empty subset list or
only unrecognized names — is rejected with a transformation-failure error
("No characters to subset"), no output file is written (the filesystem is
unchanged) and the engine is never invoked. -/
theorem optimizeFont_empty_subsets_rejects (engine : Engine) (now : Int)
    (opts : OptimizationOptions) (fs : FS) (d : FileData)
    (hva : validateAll fs opts = .ok ())
    (hlk : lookupFile fs.files opts.inputPath = some d)
    (hf : opts.inputPath ∉ fs.failing)
    (hbuf : d.toBytes ≠ [])
    (hchars : getSubsetCharacters (effSubsets opts) = [])
    (hmiss : opts.cache.getD true = false ∨
      fsFileExistsB fs ((cacheOf opts).cachePathOf opts.inputPath) = false) :
    (optimizeFont engine now opts fs).res =
      .error (.fontOptimization
        "No characters to subset. Check subset configuration."
        opts.inputPath) ∧
    (optimizeFont engine now opts fs).fs = fs ∧
    (optimizeFont engine now opts fs).engineCalls = 0 := by
  have hmeta : getFontMetadata fs opts.inputPath =
      .ok ⟨opts.inputPath, pathBasename opts.inputPath,
        pathExtname opts.inputPath, d.size, formatFileSize d.size⟩ := by
    simp [getFontMetadata, fsStat_of_lookup hlk hf]
  have hread := fsReadFile_of_lookup hlk hf
  have hbuflen : d.toBytes.length ≠ 0 := by
    simpa [List.length_eq_zero] using hbuf
  have hlen : (String.mk (getSubsetCharacters (effSubsets opts))).length = 0 := by
    rw [hchars]
    rfl
  rcases hmiss with hdis | hmiss
  · simp [optimizeFont, hva, hdis, optimizePipeline, hmeta, hread, hbuflen,
      hlen]
  · by_cases hen : opts.cache.getD true
    · have hgetm : FontCache.getP (cacheOf opts) fs opts.inputPath =
          (none, fs) := by
        simp [FontCache.getP, FontCache.getInner, hmiss]
      simp [optimizeFont, hva, hen, hgetm, optimizePipeline, hmeta, hread,
        hbuflen, hlen]
    · simp [optimizeFont, hva, hen, optimizePipeline, hmeta, hread, hbuflen,
        hlen]

/-- Witness for the amended C8: cache disabled, empty subset list. -/
theorem optimizeFont_empty_subsets_rejects_witness :
    getSubsetCharacters (effSubsets
      ⟨["", "i.ttf"], ["", "out"], none, none, none, some [], none, none,
       none, some false, none⟩) = [] ∧
    (optimizeFont (fun _ _ _ => .error "unused") 0
        ⟨["", "i.ttf"], ["", "out"], none, none, none, some [], none, none,
         none, some false, none⟩
        ⟨[(["", "i.ttf"], FileData.bytes [0, 1, 0, 0])], [], []⟩).res =
      .error (.fontOptimization
        "No characters to subset. Check subset configuration."
        ["", "i.ttf"]) ∧
    (optimizeFont (fun _ _ _ => .error "unused") 0
        ⟨["", "i.ttf"], ["", "out"], none, none, none, some [], none, none,
         none, some false, none⟩
        ⟨[(["", "i.ttf"], FileData.bytes [0, 1, 0, 0])], [], []⟩).fs =
      ⟨[(["", "i.ttf"], FileData.bytes [0, 1, 0, 0])], [], []⟩ ∧
    (optimizeFont (fun _ _ _ => .error "unused") 0
        ⟨["", "i.ttf"], ["", "out"], none, none, none, some [], none, none,
         none, some false, none⟩
        ⟨[(["", "i.ttf"], FileData.bytes [0, 1, 0, 0])], [], []⟩).engineCalls
      = 0 := by
  refine ⟨by decide, ?_⟩
  have h := optimizeFont_empty_subsets_rejects (fun _ _ _ => .error "unused")
    0
    ⟨["", "i.ttf"], ["", "out"], none, none, none, some [], none, none,
     none, some false, none⟩
    ⟨[(["", "i.ttf"], FileData.bytes [0, 1, 0, 0])], [], []⟩
    (FileData.bytes [0, 1, 0, 0])
    (by decide) (by decide) (by decide) (by decide) (by decide)
    (Or.inl (by decide))
  exact h

/-! ## Claim C10 -/

/-- C10: `generateOptimizedCSS` applied to an empty results list does not
fail: `calculateAverageReduction` divides zero by zero, which is `NaN` in
JavaScript, and the stylesheet is written with a header comment reporting
the average size reduction as the string `NaN`. -/
theorem generateOptimizedCSS_empty_reports_nan (fs : FS) (outPath : FPath)
    (hd : outPath.dropLast ∉ fs.failing)
    (hw : outPath ∉ fs.failing) :
    calculateAverageReduction [] = "NaN" ∧
    (generateOptimizedCSS [] outPath fs).1 = .ok () ∧
    lookupFile (generateOptimizedCSS [] outPath fs).2.files outPath =
      some (.text
        "/* Total fonts: 0\nAverage size reduction: NaN% */\n\n\n") := by
  have hcss : generateCSSFile []
      ["Total fonts: " ++ toString (0 : Nat),
       "Average size reduction: " ++ calculateAverageReduction [] ++ "%"] =
      "/* Total fonts: 0\nAverage size reduction: NaN% */\n\n\n" := by decide
  refine ⟨by decide, ?_, ?_⟩ <;>
    by_cases hdd : outPath.dropLast ∈ fs.dirs <;>
      simp [generateOptimizedCSS, writeFileBuffer, ensureDir, fsMkdirRec,
        hd, hw, hdd, fsWriteFile, lookupFile_insertFile, hcss]

/-- Witness for C10 at a concrete output path. -/
theorem generateOptimizedCSS_empty_reports_nan_witness :
    ((["", "s"] : FPath) ∉ ([] : List FPath)) ∧
    calculateAverageReduction [] = "NaN" ∧
    (generateOptimizedCSS [] ["", "s", "f.css"] ⟨[], [], []⟩).1 = .ok () ∧
    lookupFile (generateOptimizedCSS [] ["", "s", "f.css"]
        ⟨[], [], []⟩).2.files ["", "s", "f.css"] =
      some (.text
        "/* Total fonts: 0\nAverage size reduction: NaN% */\n\n\n") := by
  refine ⟨by decide, ?_⟩
  exact generateOptimizedCSS_empty_reports_nan ⟨[], [], []⟩
    ["", "s", "f.css"] (by decide) (by decide)

/-! ## Lemmas: the pipeline success path (for claim C3) -/

/-- The filesystem after a successful `writeFileBuffer`. -/
def fsAfterWrite (fs : FS) (p : FPath) (d : FileData) : FS :=
  { fs with
    dirs := if p.dropLast ∈ fs.dirs then fs.dirs else p.dropLast :: fs.dirs
    files := insertFile fs.files p d }

theorem writeFileBuffer_ok {fs : FS} {p : FPath} {d : FileData}
    (hd : p.dropLast ∉ fs.failing) (hw : p ∉ fs.failing) :
    writeFileBuffer fs p d = (.ok (), fsAfterWrite fs p d) := by
  by_cases hdd : p.dropLast ∈ fs.dirs <;>
    simp [writeFileBuffer, ensureDir, fsMkdirRec, hd, hdd, fsWriteFile, hw,
      fsAfterWrite]

theorem getP_miss {c : FontCache} {fs : FS} {p : FPath}
    (h : fsFileExistsB fs (c.cachePathOf p) = false) :
    c.getP fs p = (none, fs) := by
  simp [FontCache.getP, FontCache.getInner, h]

theorem validateAll_congr {fs fs' : FS} {opts : OptimizationOptions}
    (hex : fsFileExistsB fs' opts.inputPath = fsFileExistsB fs opts.inputPath)
    (hst : fsStat fs' opts.inputPath = fsStat fs opts.inputPath)
    (hrd : fsReadFile fs' opts.inputPath = fsReadFile fs opts.inputPath) :
    validateAll fs' opts = validateAll fs opts := by
  simp only [validateAll, validateOptimizationOptions, validateFontFile,
    hex, hst, hrd]

/-- The result a successful pipeline run constructs. -/
def pipelineResult (opts : OptimizationOptions) (b sb : List Nat) :
    OptimizationResult :=
  { original :=
      ⟨opts.inputPath, pathBasename opts.inputPath,
       pathExtname opts.inputPath, b.length, formatFileSize b.length⟩
    optimized :=
      ⟨outputPathOf opts (pathBasename opts.inputPath) sb,
       pathBasename (outputPathOf opts (pathBasename opts.inputPath) sb),
       pathExtname (outputPathOf opts (pathBasename opts.inputPath) sb),
       sb.length, formatFileSize sb.length⟩
    reduction := calculateReduction b.length sb.length
    css := generateFontFace
      ⟨familyOf opts,
       "./" ++ outputFilenameOf opts (pathBasename opts.inputPath) sb,
       opts.fontWeight.getD 400, some (opts.fontStyle.getD "normal"),
       opts.fontDisplay.getD "swap"⟩
    fontFamily := familyOf opts
    fontWeight := opts.fontWeight.getD 400 }

theorem optimizePipeline_success (engine : Engine) (now : Int)
    (opts : OptimizationOptions) (c : FontCache) (fs : FS) (gets : Nat)
    (b sb : List Nat)
    (hlk : lookupFile fs.files opts.inputPath = some (.bytes b))
    (hf : opts.inputPath ∉ fs.failing)
    (hb : b ≠ [])
    (hchars : getSubsetCharacters (effSubsets opts) ≠ [])
    (heng : engine b (String.mk (getSubsetCharacters (effSubsets opts)))
      (targetFormatOf opts) = .ok sb)
    (hsb : sb ≠ [])
    (hodf : opts.outputDir ∉ fs.failing)
    (hopf : outputPathOf opts (pathBasename opts.inputPath) sb ∉ fs.failing)
    (hne_po : outputPathOf opts (pathBasename opts.inputPath) sb ≠
      opts.inputPath)
    (hcdf : c.cacheDir ∉ fs.failing)
    (hcpf : c.cachePathOf opts.inputPath ∉ fs.failing) :
    optimizePipeline engine now opts c fs true gets =
      ⟨.ok (pipelineResult opts b sb),
       fsAfterSet c
         (fsAfterWrite fs (outputPathOf opts (pathBasename opts.inputPath) sb)
           (.bytes sb))
         opts.inputPath (pipelineResult opts b sb) now (hashBytes b),
       1, gets⟩ := by
  have hmeta : getFontMetadata fs opts.inputPath =
      .ok ⟨opts.inputPath, pathBasename opts.inputPath,
        pathExtname opts.inputPath, b.length, formatFileSize b.length⟩ := by
    simp [getFontMetadata, fsStat_of_lookup hlk hf, FileData.size]
  have hread := fsReadFile_of_lookup hlk hf
  have hblen : b.length ≠ 0 := by simpa [List.length_eq_zero] using hb
  have htextlen : (String.mk (getSubsetCharacters (effSubsets opts))).length ≠ 0 := by
    simpa [String.length, List.length_eq_zero] using hchars
  have hsblen : sb.length ≠ 0 := by simpa [List.length_eq_zero] using hsb
  have hdrop : (outputPathOf opts (pathBasename opts.inputPath) sb).dropLast =
      opts.outputDir := by
    simp [outputPathOf]
  have hwr := @writeFileBuffer_ok fs
    (outputPathOf opts (pathBasename opts.inputPath) sb) (.bytes sb)
    (by rw [hdrop]; exact hodf) hopf
  have hmeta2 : getFontMetadata
      (fsAfterWrite fs (outputPathOf opts (pathBasename opts.inputPath) sb)
        (.bytes sb))
      (outputPathOf opts (pathBasename opts.inputPath) sb) =
      .ok ⟨outputPathOf opts (pathBasename opts.inputPath) sb,
        pathBasename (outputPathOf opts (pathBasename opts.inputPath) sb),
        pathExtname (outputPathOf opts (pathBasename opts.inputPath) sb),
        sb.length, formatFileSize sb.length⟩ := by
    have hlk2 : lookupFile
        (fsAfterWrite fs (outputPathOf opts (pathBasename opts.inputPath) sb)
          (.bytes sb)).files
        (outputPathOf opts (pathBasename opts.inputPath) sb) =
        some (.bytes sb) := by
      simp [fsAfterWrite, lookupFile_insertFile]
    simp [getFontMetadata, fsStat_of_lookup hlk2 hopf, FileData.size]
  have hlkW : lookupFile
      (fsAfterWrite fs (outputPathOf opts (pathBasename opts.inputPath) sb)
        (.bytes sb)).files opts.inputPath = some (.bytes b) := by
    simp [fsAfterWrite, lookupFile_insertFile, hne_po, hlk]
  have hsetP := @setP_ok c
    (fsAfterWrite fs (outputPathOf opts (pathBasename opts.inputPath) sb)
      (.bytes sb))
    opts.inputPath (pipelineResult opts b sb) now
    (.bytes b) hcdf hlkW hf hcpf
  simp only [FileData.toBytes] at hsetP
  simp only [pipelineResult] at hsetP
  simp [optimizePipeline, hmeta, hread, hblen, htextlen, heng, hsblen,
    hwr, hmeta2, hsetP, pipelineResult, FileData.toBytes, hb, hchars, hsb]

/-! ## Claim C3 -/

/-- C3: with caching enabled, running `optimizeFont` twice on an input whose
bytes do not change returns results with identical scalar fields (sizes,
reduction, css, family, weight) on both calls, and the subsetting engine is
invoked exactly once — during the first call, never the second. -/
theorem optimizeFont_idempotent_cached (engine : Engine) (now1 now2 : Int)
    (opts : OptimizationOptions) (fs : FS) (b sb : List Nat)
    (hva : validateAll fs opts = .ok ())
    (hcache : opts.cache.getD true = true)
    (hmiss : fsFileExistsB fs ((cacheOf opts).cachePathOf opts.inputPath) =
      false)
    (hlk : lookupFile fs.files opts.inputPath = some (.bytes b))
    (hf : opts.inputPath ∉ fs.failing)
    (hb : b ≠ [])
    (hchars : getSubsetCharacters (effSubsets opts) ≠ [])
    (heng : engine b (String.mk (getSubsetCharacters (effSubsets opts)))
      (targetFormatOf opts) = .ok sb)
    (hsb : sb ≠ [])
    (hodf : opts.outputDir ∉ fs.failing)
    (hopf : outputPathOf opts (pathBasename opts.inputPath) sb ∉ fs.failing)
    (hne_po : outputPathOf opts (pathBasename opts.inputPath) sb ≠
      opts.inputPath)
    (hcdf : (cacheOf opts).cacheDir ∉ fs.failing)
    (hcpf : (cacheOf opts).cachePathOf opts.inputPath ∉ fs.failing)
    (hne_cp_p : (cacheOf opts).cachePathOf opts.inputPath ≠ opts.inputPath)
    (hne_cp_o : (cacheOf opts).cachePathOf opts.inputPath ≠
      outputPathOf opts (pathBasename opts.inputPath) sb) :
    ∃ r1 r2,
      (optimizeFont engine now1 opts fs).res = .ok r1 ∧
      (optimizeFont engine now1 opts fs).engineCalls = 1 ∧
      (optimizeFont engine now2 opts
        (optimizeFont engine now1 opts fs).fs).res = .ok r2 ∧
      (optimizeFont engine now2 opts
        (optimizeFont engine now1 opts fs).fs).engineCalls = 0 ∧
      r2.original.size = r1.original.size ∧
      r2.optimized.size = r1.optimized.size ∧
      r2.reduction = r1.reduction ∧
      r2.css = r1.css ∧
      r2.fontFamily = r1.fontFamily ∧
      r2.fontWeight = r1.fontWeight := by
  have hgetm : FontCache.getP (cacheOf opts) fs opts.inputPath = (none, fs) :=
    getP_miss hmiss
  have hpipe := optimizePipeline_success engine now1 opts (cacheOf opts) fs 1
    b sb hlk hf hb hchars heng hsb hodf hopf hne_po hcdf hcpf
  set R := pipelineResult opts b sb with hR
  set opath := outputPathOf opts (pathBasename opts.inputPath) sb with hopath
  set E := mkEntry (hashBytes b) now1 R with hE
  set fs' := fsAfterSet (cacheOf opts)
    (fsAfterWrite fs opath (.bytes sb)) opts.inputPath R now1 (hashBytes b)
    with hfs'
  have hrun1 : optimizeFont engine now1 opts fs = ⟨.ok R, fs', 1, 1⟩ := by
    simp [optimizeFont, hva, hcache, hgetm, hpipe, hfs']
  have hfiles' : fs'.files =
      insertFile (insertFile fs.files opath (.bytes sb))
        ((cacheOf opts).cachePathOf opts.inputPath) (.entryFile E) := rfl
  have hf' : opts.inputPath ∉ fs'.failing := hf
  have hcpf' : (cacheOf opts).cachePathOf opts.inputPath ∉ fs'.failing := hcpf
  have hopf' : opath ∉ fs'.failing := hopf
  have hlk' : lookupFile fs'.files opts.inputPath = some (.bytes b) := by
    rw [hfiles', lookupFile_insertFile, if_neg hne_cp_p,
      lookupFile_insertFile, if_neg hne_po]
    exact hlk
  have h1' : lookupFile fs'.files
      ((cacheOf opts).cachePathOf opts.inputPath) = some (.entryFile E) := by
    rw [hfiles', lookupFile_insertFile, if_pos rfl]
  have houtlk' : lookupFile fs'.files opath = some (.bytes sb) := by
    rw [hfiles', lookupFile_insertFile, if_neg hne_cp_o,
      lookupFile_insertFile, if_pos rfl]
  have hex' : fsFileExistsB fs' opts.inputPath =
      fsFileExistsB fs opts.inputPath := by
    simp [fsFileExistsB_of_lookup hlk' hf', fsFileExistsB_of_lookup hlk hf]
  have hst' : fsStat fs' opts.inputPath = fsStat fs opts.inputPath := by
    rw [fsStat_of_lookup hlk' hf', fsStat_of_lookup hlk hf]
  have hrd' : fsReadFile fs' opts.inputPath = fsReadFile fs opts.inputPath := by
    rw [fsReadFile_of_lookup hlk' hf', fsReadFile_of_lookup hlk hf]
  have hva' : validateAll fs' opts = .ok () :=
    (validateAll_congr hex' hst' hrd').trans hva
  have hout : E.result.outputPath = opath := by
    simp [hE, mkEntry, hR, pipelineResult, hopath]
  have h7' : fsFileExistsB fs' E.result.outputPath = true := by
    rw [hout]
    exact fsFileExistsB_of_lookup houtlk' hopf'
  have hget2 := getP_hit h1' hcpf' (by simp [hE, mkEntry, cacheVersion]) hlk'
    hf' (by simp [hE, mkEntry, FileData.toBytes]) h7'
  have hrun2 : optimizeFont engine now2 opts fs' =
      ⟨.ok (restoredResult E opts.inputPath), fs', 0, 1⟩ := by
    simp [optimizeFont, hva', hcache, hget2]
  refine ⟨R, restoredResult E opts.inputPath, ?_, ?_, ?_, ?_, ?_, ?_, ?_, ?_,
    ?_, ?_⟩ <;>
    simp [hrun1, hrun2, restoredResult, hE, mkEntry, hR, pipelineResult]

/-- Witness for C3: a valid TTF input, `numbers` subset, a stub engine; the
first call subsets once, the second is served from the cache. -/
theorem optimizeFont_idempotent_cached_witness :
    (validateAll ⟨[(["", "i.ttf"], FileData.bytes [0, 1, 0, 0])], [], []⟩
      ⟨["", "i.ttf"], ["", "out"], none, none, none, some ["numbers"], none,
       none, none, none, none⟩ = .ok ()) ∧
    getSubsetCharacters (effSubsets
      ⟨["", "i.ttf"], ["", "out"], none, none, none, some ["numbers"], none,
       none, none, none, none⟩) ≠ [] ∧
    (∃ r1 r2,
      (optimizeFont (fun _ _ _ => .ok [7, 7]) 1
        ⟨["", "i.ttf"], ["", "out"], none, none, none, some ["numbers"], none,
         none, none, none, none⟩
        ⟨[(["", "i.ttf"], FileData.bytes [0, 1, 0, 0])], [], []⟩).res =
        .ok r1 ∧
      (optimizeFont (fun _ _ _ => .ok [7, 7]) 1
        ⟨["", "i.ttf"], ["", "out"], none, none, none, some ["numbers"], none,
         none, none, none, none⟩
        ⟨[(["", "i.ttf"], FileData.bytes [0, 1, 0, 0])], [], []⟩).engineCalls
        = 1 ∧
      (optimizeFont (fun _ _ _ => .ok [7, 7]) 2
        ⟨["", "i.ttf"], ["", "out"], none, none, none, some ["numbers"], none,
         none, none, none, none⟩
        (optimizeFont (fun _ _ _ => .ok [7, 7]) 1
          ⟨["", "i.ttf"], ["", "out"], none, none, none, some ["numbers"],
           none, none, none, none, none⟩
          ⟨[(["", "i.ttf"], FileData.bytes [0, 1, 0, 0])], [], []⟩).fs).res =
        .ok r2 ∧
      (optimizeFont (fun _ _ _ => .ok [7, 7]) 2
        ⟨["", "i.ttf"], ["", "out"], none, none, none, some ["numbers"], none,
         none, none, none, none⟩
        (optimizeFont (fun _ _ _ => .ok [7, 7]) 1
          ⟨["", "i.ttf"], ["", "out"], none, none, none, some ["numbers"],
           none, none, none, none, none⟩
          ⟨[(["", "i.ttf"], FileData.bytes [0, 1, 0, 0])], [],
           []⟩).fs).engineCalls = 0 ∧
      r2.original.size = r1.original.size ∧
      r2.optimized.size = r1.optimized.size ∧
      r2.reduction = r1.reduction ∧
      r2.css = r1.css ∧
      r2.fontFamily = r1.fontFamily ∧
      r2.fontWeight = r1.fontWeight) := by
  refine ⟨by decide, by decide, ?_⟩
  exact optimizeFont_idempotent_cached (fun _ _ _ => .ok [7, 7]) 1 2
    ⟨["", "i.ttf"], ["", "out"], none, none, none, some ["numbers"], none,
     none, none, none, none⟩
    ⟨[(["", "i.ttf"], FileData.bytes [0, 1, 0, 0])], [], []⟩
    [0, 1, 0, 0] [7, 7]
    (by decide) (by decide) (by decide) (by decide) (by decide) (by decide)
    (by decide) (by decide) (by decide) (by decide) (by decide) (by decide)
    (by decide) (by decide) (by decide) (by decide)
